import Mathlib

/-!
Verification of the payment-webhook integration layer: attribution
resolution (ttclid cascade), transaction merge, status normalization and
the polling responder.  The JavaScript sources `api/webhook.js`,
`api/verifyPayment.js` and `api/save-utm-query.js` are shallowly embedded:
JSON values become an inductive type, the ephemeral JSON stores become
association lists, and the HTTP handlers become pure functions from
(store, payload) to (response, store).  Exceptions thrown inside a handler
(caught by its outer try/catch and turned into an HTTP 500) are modelled
with `Except`.
-/

/-- JSON values as delivered by the HTTP layer (`req.body`) and as stored in
the ephemeral JSON files.  `num m e` represents the decimal number
`m * 10 ^ e` (mantissa and exponent as parsed from the source text). -/
inductive Json where
  | null
  | bool (b : Bool)
  | num (m : Int) (e : Int)
  | str (s : String)
  | arr (elems : List Json)
  | obj (fields : List (String × Json))

/-- JavaScript truthiness of a defined value: `null`, `false`, `0`, `""` are
falsy; every object and array is truthy. -/
def Json.truthy : Json → Bool
  | .null => false
  | .bool b => b
  | .num m _ => m != 0
  | .str s => s != ""
  | .arr _ => true
  | .obj _ => true

/-- JavaScript truthiness where `none` stands for `undefined`. -/
def jsTruthy : Option Json → Bool
  | none => false
  | some j => j.truthy

/-- Property read `j.k` on a defined value.  On an object it returns the
first binding of `k` (the embedded parser collapses duplicate keys, so the
first binding is the JavaScript one); on any non-object it is `undefined`
(`none`).  Property access on `null` throws in JavaScript; inside the
handlers every such read is truthiness-guarded except the reads on the
request body itself, so the embedding returns `undefined` there and the
handler-level statements quantifying over arbitrary payloads assume a
non-null body where that matters. -/
def Json.getProp (j : Json) (k : String) : Option Json :=
  match j with
  | .obj fields => List.lookup k fields
  | _ => none

/-- Property read `o.k` where the receiver may itself be `undefined`. -/
def jsProp (o : Option Json) (k : String) : Option Json :=
  match o with
  | some j => j.getProp k
  | none => none

/-- JavaScript `a || b` on values (`a` if truthy, else `b`). -/
def jsOr (a b : Option Json) : Option Json :=
  if jsTruthy a then a else b

/-- JavaScript `a && b` on values (`a` if falsy, else `b`). -/
def jsAnd (a b : Option Json) : Option Json :=
  if jsTruthy a then b else a

/-- Read a key from one of the ephemeral JSON stores (an object keyed by
transaction id, embedded as an association list with unique keys).
JavaScript property lookup on a plain object also consults the prototype
chain (keys such as `constructor` are inherited and truthy); the embedding
models own properties only. -/
def storeGet (store : List (String × Json)) (key : String) : Option Json :=
  List.lookup key store

/-- Write a key into a store: replace the existing binding in place, or
append a new one (JavaScript property assignment on a plain object). -/
def storeSet (store : List (String × Json)) (key : String) (v : Json) :
    List (String × Json) :=
  match store with
  | [] => [(key, v)]
  | (k, w) :: rest =>
      if k = key then (k, v) :: rest else (k, w) :: storeSet rest key v

/-- Record field that is dropped when the field value is `undefined`
(`JSON.stringify` omits `undefined`-valued properties when the store file is
written). -/
def optField (k : String) (v : Option Json) : List (String × Json) :=
  match v with
  | some j => [(k, j)]
  | none => []

/-- Remove a field from an object (used to compare records up to their
`updated_at` timestamp). -/
def Json.eraseProp (j : Json) (k : String) : Json :=
  match j with
  | .obj fields => .obj (fields.filter (fun p => p.1 ≠ k))
  | _ => j

/-- Double-quote character (used by the embedded JSON parser). -/
def quoteChar : Char := Char.ofNat 34

/-- Backslash character (used by the embedded JSON parser). -/
def backslashChar : Char := Char.ofNat 92

/-- Left curly brace character. -/
def lbraceChar : Char := Char.ofNat 123

/-- Right curly brace character. -/
def rbraceChar : Char := Char.ofNat 125

/-- Left square bracket character. -/
def lbrackChar : Char := Char.ofNat 91

/-- Right square bracket character. -/
def rbrackChar : Char := Char.ofNat 93

/-- Whitespace for the JavaScript regexp class `\s` and `String.prototype.trim`:
ASCII whitespace, NBSP, the Unicode space separators, line separators and the
BOM. -/
def isJsSpace (c : Char) : Bool :=
  let n := c.toNat
  (9 ≤ n && n ≤ 13) || n = 32 || n = 160 || n = 5760 ||
    (8192 ≤ n && n ≤ 8202) || n = 8232 || n = 8233 || n = 8239 ||
    n = 8287 || n = 12288 || n = 65279

/-- JavaScript `String.prototype.trim`. -/
def jsTrim (s : String) : String :=
  String.mk (((s.data.dropWhile isJsSpace).reverse.dropWhile isJsSpace).reverse)

/-- JavaScript `String.prototype.toLowerCase`, restricted to the basic latin
range actually exercised by the status strings (model of the builtin). -/
def jsToLower (s : String) : String :=
  String.mk (s.data.map Char.toLower)

/-- JavaScript `String.prototype.toUpperCase`, restricted to the basic latin
range actually exercised by the status strings (model of the builtin). -/
def jsToUpper (s : String) : String :=
  String.mk (s.data.map Char.toUpper)

/-- Value of a hexadecimal digit, or `none`. -/
def hexVal (c : Char) : Option Nat :=
  let n := c.toNat
  if 48 ≤ n && n ≤ 57 then some (n - 48)
  else if 97 ≤ n && n ≤ 102 then some (n - 87)
  else if 65 ≤ n && n ≤ 70 then some (n - 55)
  else none

/-- Model of `decodeURIComponent`: each `%HH` escape becomes the character
with code `HH`; a `%` not followed by two hex digits makes the whole decode
fail (`decodeURIComponent` throws `URIError`).  Multi-byte UTF-8 escape
sequences are decoded bytewise; none of the analysed behaviours depends on
multi-byte reassembly. -/
def percentDecode : List Char → Option (List Char)
  | [] => some []
  | '%' :: c1 :: c2 :: rest =>
      match hexVal c1, hexVal c2 with
      | some h1, some h2 =>
          match percentDecode rest with
          | some d => some (Char.ofNat (16 * h1 + h2) :: d)
          | none => none
      | _, _ => none
  | '%' :: _ => none
  | c :: rest =>
      match percentDecode rest with
      | some d => some (c :: d)
      | none => none

/-- Characters admitted by the capture group of `/ttclid=([^&\s]+)/`. -/
def ttclidTokenChar (c : Char) : Bool :=
  c != '&' && !(isJsSpace c)

/-- Does the character list start with the literal `ttclid=`? -/
def startsWithTtclid (cs : List Char) : Bool :=
  cs.take 7 == "ttclid=".data

/-- Model of `/ttclid=([^&\s]+)/.exec(s)`: scan left to right for the first
position where the literal `ttclid=` is followed by at least one
non-`&`/non-whitespace character, and return the maximal (greedy) capture.
The pattern is unanchored, so it also fires in the middle of a token. -/
def regexExecTtclid : List Char → Option (List Char)
  | [] => none
  | c :: rest =>
      if startsWithTtclid (c :: rest) then
        if (((c :: rest).drop 7).takeWhile ttclidTokenChar).isEmpty then
          regexExecTtclid rest
        else some (((c :: rest).drop 7).takeWhile ttclidTokenChar)
      else regexExecTtclid rest

/-- Decimal rendering of the embedded number `m * 10 ^ e` (model of JavaScript
number-to-string conversion for the decimal values the parser produces;
scientific-notation corner cases of IEEE doubles are not modelled). -/
def numToString (m : Int) (e : Int) : String :=
  if e ≥ 0 then toString (m * 10 ^ e.toNat)
  else
    let k := (-e).toNat
    let a := m.natAbs
    let intPart := a / 10 ^ k
    let fracPart := a % 10 ^ k
    let fracRaw := toString fracPart
    let fracDigits := String.mk (List.replicate (k - fracRaw.length) '0') ++ fracRaw
    let fracTrimmed := String.mk ((fracDigits.data.reverse.dropWhile (fun c => c == '0')).reverse)
    let sign := if m < 0 then "-" else ""
    if fracTrimmed = "" then sign ++ toString intPart
    else sign ++ toString intPart ++ "." ++ fracTrimmed

mutual

/-- JavaScript `String(v)` coercion on the embedded value space: plain objects
render as `[object Object]`, arrays join their elements with commas (with
`null` rendering as the empty string inside a join). -/
def jsToStringJ : Json → String
  | .null => "null"
  | .bool true => "true"
  | .bool false => "false"
  | .num m e => numToString m e
  | .str s => s
  | .arr xs => String.intercalate "," (jsToStringArr xs)
  | .obj _ => "[object Object]"

/-- Element strings for an array join (`Array.prototype.join`). -/
def jsToStringArr : List Json → List String
  | [] => []
  | x :: xs =>
      (match x with
       | .null => ""
       | y => jsToStringJ y) :: jsToStringArr xs

end

/-- JavaScript `String(v)` where `none` is `undefined`. -/
def jsToString (o : Option Json) : String :=
  match o with
  | some j => jsToStringJ j
  | none => "undefined"

/-- Value of a decimal digit, or `none`. -/
def digitVal (c : Char) : Option Nat :=
  if 48 ≤ c.toNat && c.toNat ≤ 57 then some (c.toNat - 48) else none

/-- Split off the leading run of decimal digits. -/
def takeDigits : List Char → (List Nat × List Char)
  | [] => ([], [])
  | c :: rest =>
      match digitVal c with
      | some d =>
          let (ds, r) := takeDigits rest
          (d :: ds, r)
      | none => ([], c :: rest)

/-- Natural number denoted by a digit list (most significant first). -/
def digitsToNat (ds : List Nat) : Nat :=
  ds.foldl (fun a d => 10 * a + d) 0

/-- Exponent suffix of a decimal literal (shared by the `Number` coercion
model); returns the signed exponent and requires full consumption. -/
def parseExpSuffix : List Char → Option Int
  | [] => some 0
  | c :: rr =>
      if c == 'e' || c == 'E' then
        let (esign, rr2) :=
          match rr with
          | '+' :: q => ((1 : Int), q)
          | '-' :: q => ((-1 : Int), q)
          | _ => ((1 : Int), rr)
        let (ed, r3) := takeDigits rr2
        if ed.isEmpty || !r3.isEmpty then none
        else some (esign * (digitsToNat ed : Int))
      else none

/-- Unsigned decimal body of a JavaScript `Number(string)` coercion:
`digits [. digits] [exp]` or `. digits [exp]`, consuming the whole input. -/
def parseDecimalBody (cs : List Char) : Option (Int × Int) :=
  let (ip, r1) := takeDigits cs
  match r1 with
  | '.' :: r2 =>
      let (fp, r3) := takeDigits r2
      if ip.isEmpty && fp.isEmpty then none
      else
        match parseExpSuffix r3 with
        | some ex => some ((digitsToNat (ip ++ fp) : Int), ex - (fp.length : Int))
        | none => none
  | _ =>
      if ip.isEmpty then none
      else
        match parseExpSuffix r1 with
        | some ex => some ((digitsToNat ip : Int), ex)
        | none => none

/-- Model of JavaScript `Number(string)`: trim, empty means `0`, otherwise an
optionally signed decimal literal; anything else (including the unused hex
and `Infinity` forms) is `NaN`, embedded as `none`. -/
def strToNumber? (s : String) : Option (Int × Int) :=
  let cs := (s.data.dropWhile isJsSpace).reverse.dropWhile isJsSpace |>.reverse
  match cs with
  | [] => some (0, 0)
  | '-' :: rest => (parseDecimalBody rest).map (fun p => (-p.1, p.2))
  | '+' :: rest => parseDecimalBody rest
  | _ => parseDecimalBody cs

/-- Numeric equality of `m1 * 10 ^ e1` and `m2 * 10 ^ e2`. -/
def numEq (m1 e1 m2 e2 : Int) : Bool :=
  if e1 ≥ e2 then m1 * 10 ^ (e1 - e2).toNat == m2
  else m1 == m2 * 10 ^ (e2 - e1).toNat

/-- Numeric comparison of a number against a string (JS `==` coercion). -/
def numEqStr (m e : Int) (s : String) : Bool :=
  match strToNumber? s with
  | some p => numEq m e p.1 p.2
  | none => false

/-- Boolean to number coercion. -/
def boolToInt (b : Bool) : Int :=
  if b then 1 else 0

/-- JavaScript loose equality `==` on defined values.  Composite values
(arrays/objects) compare by reference in JavaScript; the two sides of the
store-scan comparison always come from different parses, hence
composite-composite is `false`, while composite-primitive goes through the
`ToPrimitive` string coercion. -/
def looseEqJ : Json → Json → Bool
  | .null, .null => true
  | .null, _ => false
  | _, .null => false
  | .str a, .str b => a == b
  | .num m1 e1, .num m2 e2 => numEq m1 e1 m2 e2
  | .bool a, .bool b => a == b
  | .num m e, .str s => numEqStr m e s
  | .str s, .num m e => numEqStr m e s
  | .bool a, .num m e => numEq (boolToInt a) 0 m e
  | .num m e, .bool a => numEq (boolToInt a) 0 m e
  | .bool a, .str s => numEqStr (boolToInt a) 0 s
  | .str s, .bool a => numEqStr (boolToInt a) 0 s
  | .arr xs, .str s => jsToStringJ (.arr xs) == s
  | .str s, .arr xs => jsToStringJ (.arr xs) == s
  | .obj fs, .str s => jsToStringJ (.obj fs) == s
  | .str s, .obj fs => jsToStringJ (.obj fs) == s
  | .arr xs, .num m e => numEqStr m e (jsToStringJ (.arr xs))
  | .num m e, .arr xs => numEqStr m e (jsToStringJ (.arr xs))
  | .obj fs, .num m e => numEqStr m e (jsToStringJ (.obj fs))
  | .num m e, .obj fs => numEqStr m e (jsToStringJ (.obj fs))
  | .arr xs, .bool a => numEqStr (boolToInt a) 0 (jsToStringJ (.arr xs))
  | .bool a, .arr xs => numEqStr (boolToInt a) 0 (jsToStringJ (.arr xs))
  | .obj fs, .bool a => numEqStr (boolToInt a) 0 (jsToStringJ (.obj fs))
  | .bool a, .obj fs => numEqStr (boolToInt a) 0 (jsToStringJ (.obj fs))
  | .arr _, .arr _ => false
  | .obj _, .obj _ => false
  | .arr _, .obj _ => false
  | .obj _, .arr _ => false

/-- JavaScript loose equality where `none` is `undefined` (`undefined` and
`null` are mutually loosely equal and equal to nothing else). -/
def looseEq : Option Json → Option Json → Bool
  | none, none => true
  | none, some .null => true
  | some .null, none => true
  | none, some _ => false
  | some _, none => false
  | some a, some b => looseEqJ a b

/-- Property assignment used while building a parsed object: a duplicate key
overwrites the value at the original position, otherwise the binding is
appended (JavaScript object insertion order). -/
def objInsert (fields : List (String × Json)) (k : String) (v : Json) :
    List (String × Json) :=
  match fields with
  | [] => [(k, v)]
  | (k', w) :: rest =>
      if k' = k then (k', v) :: rest else (k', w) :: objInsert rest k v

/-- JSON insignificant whitespace. -/
def jsonSkipWs (cs : List Char) : List Char :=
  cs.dropWhile (fun c => c == ' ' || c == '\t' || c == '\n' || c == '\r')

/-- Body of a JSON string literal, after the opening quote: characters and
escapes up to the closing quote.  `\uXXXX` produces the scalar with that
code (surrogate-pair reassembly is not modelled); unescaped control
characters are rejected as in `JSON.parse`. -/
def parseJStringAux : Nat → List Char → List Char → Option (List Char × List Char)
  | 0, _, _ => none
  | _, [], _ => none
  | fuel + 1, c :: rest, acc =>
      if c = quoteChar then some (acc.reverse, rest)
      else if c = backslashChar then
        match rest with
        | [] => none
        | e :: rest2 =>
            if e = quoteChar then parseJStringAux fuel rest2 (quoteChar :: acc)
            else if e = backslashChar then parseJStringAux fuel rest2 (backslashChar :: acc)
            else if e = '/' then parseJStringAux fuel rest2 ('/' :: acc)
            else if e = 'b' then parseJStringAux fuel rest2 (Char.ofNat 8 :: acc)
            else if e = 'f' then parseJStringAux fuel rest2 (Char.ofNat 12 :: acc)
            else if e = 'n' then parseJStringAux fuel rest2 ('\n' :: acc)
            else if e = 'r' then parseJStringAux fuel rest2 ('\r' :: acc)
            else if e = 't' then parseJStringAux fuel rest2 ('\t' :: acc)
            else if e = 'u' then
              match rest2 with
              | h1 :: h2 :: h3 :: h4 :: rest3 =>
                  match hexVal h1, hexVal h2, hexVal h3, hexVal h4 with
                  | some a, some b, some c3, some d =>
                      parseJStringAux fuel rest3
                        (Char.ofNat (4096 * a + 256 * b + 16 * c3 + d) :: acc)
                  | _, _, _, _ => none
              | _ => none
            else none
      else if c.toNat < 32 then none
      else parseJStringAux fuel rest (c :: acc)

/-- JSON number literal: strict `JSON.parse` grammar
`-? (0 | [1-9][0-9]*) (. [0-9]+)? ([eE][+-]?[0-9]+)?`, returning the
remaining input. -/
def parseJNumber (cs : List Char) : Option (Json × List Char) :=
  let signSplit :=
    match cs with
    | '-' :: r => (true, r)
    | _ => (false, cs)
  let neg := signSplit.1
  let (ip, r1) := takeDigits signSplit.2
  if ip.isEmpty then none
  else if 1 < ip.length && ip.head? == some 0 then none
  else
    let fracRes : Option (List Nat × List Char) :=
      match r1 with
      | '.' :: rr =>
          let (f, r') := takeDigits rr
          if f.isEmpty then none else some (f, r')
      | _ => some ([], r1)
    match fracRes with
    | none => none
    | some (fp, r2) =>
        let expRes : Option (Int × List Char) :=
          match r2 with
          | c :: rr =>
              if c == 'e' || c == 'E' then
                let esignSplit :=
                  match rr with
                  | '+' :: q => ((1 : Int), q)
                  | '-' :: q => ((-1 : Int), q)
                  | _ => ((1 : Int), rr)
                let (ed, r3) := takeDigits esignSplit.2
                if ed.isEmpty then none
                else some (esignSplit.1 * (digitsToNat ed : Int), r3)
              else some (0, c :: rr)
          | [] => some (0, [])
        match expRes with
        | none => none
        | some (ex, r3) =>
            let mantNat : Int := (digitsToNat (ip ++ fp) : Int)
            let mant := if neg then -mantNat else mantNat
            some (.num mant (ex - (fp.length : Int)), r3)

mutual

/-- One JSON value (strict `JSON.parse` grammar), fuel-bounded. -/
def parseJValue : Nat → List Char → Option (Json × List Char)
  | 0, _ => none
  | fuel + 1, cs0 =>
      let cs := jsonSkipWs cs0
      match cs with
      | [] => none
      | c :: rest =>
          if c = quoteChar then
            match parseJStringAux (rest.length + 1) rest [] with
            | some (sdata, r) => some (.str (String.mk sdata), r)
            | none => none
          else if c = lbraceChar then parseJObjectBody fuel rest true []
          else if c = lbrackChar then parseJArrayBody fuel rest true []
          else if c = 'n' then
            match cs with
            | 'n' :: 'u' :: 'l' :: 'l' :: r => some (.null, r)
            | _ => none
          else if c = 't' then
            match cs with
            | 't' :: 'r' :: 'u' :: 'e' :: r => some (.bool true, r)
            | _ => none
          else if c = 'f' then
            match cs with
            | 'f' :: 'a' :: 'l' :: 's' :: 'e' :: r => some (.bool false, r)
            | _ => none
          else parseJNumber cs

/-- Items of a JSON array after the opening bracket. -/
def parseJArrayBody : Nat → List Char → Bool → List Json → Option (Json × List Char)
  | 0, _, _, _ => none
  | fuel + 1, cs0, first, acc =>
      let cs := jsonSkipWs cs0
      match cs with
      | [] => none
      | c :: rest =>
          if first && c == rbrackChar then some (.arr [], rest)
          else
            match parseJValue fuel (c :: rest) with
            | none => none
            | some (v, r1) =>
                match jsonSkipWs r1 with
                | ',' :: r2 => parseJArrayBody fuel r2 false (v :: acc)
                | c2 :: r2 =>
                    if c2 = rbrackChar then some (.arr (v :: acc).reverse, r2) else none
                | [] => none

/-- Members of a JSON object after the opening brace. -/
def parseJObjectBody : Nat → List Char → Bool → List (String × Json) →
    Option (Json × List Char)
  | 0, _, _, _ => none
  | fuel + 1, cs0, first, acc =>
      let cs := jsonSkipWs cs0
      match cs with
      | [] => none
      | c :: rest =>
          if first && c == rbraceChar then some (.obj acc, rest)
          else if c = quoteChar then
            match parseJStringAux (rest.length + 1) rest [] with
            | none => none
            | some (kdata, r1) =>
                match jsonSkipWs r1 with
                | ':' :: r2 =>
                    match parseJValue fuel r2 with
                    | none => none
                    | some (v, r3) =>
                        let acc2 := objInsert acc (String.mk kdata) v
                        match jsonSkipWs r3 with
                        | ',' :: r4 => parseJObjectBody fuel r4 false acc2
                        | c2 :: r4 =>
                            if c2 = rbraceChar then some (.obj acc2, r4) else none
                        | [] => none
                | _ => none
          else none

end

/-- Model of `JSON.parse`: parse one value and require that only whitespace
remains. -/
def jsonParse (s : String) : Option Json :=
  match parseJValue (2 * s.length + 2) s.data with
  | some (v, rest) => if (jsonSkipWs rest).isEmpty then some v else none
  | none => none

namespace Webhook

/-- Query-string arm of `extractTtclidFromUtmQuery` in `api/webhook.js`
(also inlined at cascade step 5): run `/ttclid=([^&\s]+)/.exec` and
percent-decode the capture; a malformed escape makes `decodeURIComponent`
throw, which this arm does not catch. -/
def extractViaQueryString (s : String) : Except Unit (Option Json) :=
  match regexExecTtclid s.data with
  | some cap =>
      match percentDecode cap with
      | some d => .ok (some (.str (String.mk d)))
      | none => .error ()
  | none => .ok none

/-- `extractTtclidFromUtmQuery(utmQuery)` from `api/webhook.js`: falsy input
yields `null`; otherwise try `JSON.parse` (a parse failure is caught
locally) and return a truthy `ttclid` member; otherwise fall back to the
query-string regex, whose decode may throw. -/
def extractTtclidFromUtmQuery (utmQuery : Option Json) : Except Unit (Option Json) :=
  if !(jsTruthy utmQuery) then .ok none
  else
    let s := jsToString utmQuery
    match jsonParse s with
    | some decoded =>
        if decoded.truthy && jsTruthy (decoded.getProp "ttclid") then
          .ok (decoded.getProp "ttclid")
        else extractViaQueryString s
    | none => extractViaQueryString s

/-- Truthy `utmQuery` member of the stored attribution-query entry for this
transaction id (`utmQueries[transactionId] && utmQueries[transactionId].utmQuery`). -/
def storedUtmBlob (utmQueries : List (String × Json)) (key : String) : Option Json :=
  match storeGet utmQueries key with
  | some entry =>
      if entry.truthy && jsTruthy (entry.getProp "utmQuery") then entry.getProp "utmQuery"
      else none
  | none => none

/-- Cascade step 1: extraction from the saved attribution query; the whole
attempt runs inside `try { ... } catch (e) { }`, so a decode throw is
swallowed and the step simply fails. -/
def step1 (utmQueries : List (String × Json)) (key : String) : Option Json :=
  match storedUtmBlob utmQueries key with
  | some blob =>
      match extractTtclidFromUtmQuery (some blob) with
      | .ok v => if jsTruthy v then v else none
      | .error _ => none
  | none => none

/-- Cascade step 5 body: `payload.utm`, only when it is a (truthy) string,
searched as a raw query string; the decode may throw. -/
def step5run (payload : Json) : Except Unit (Option Json) :=
  match payload.getProp "utm" with
  | some (.str u) => if u != "" then extractViaQueryString u else .ok none
  | _ => .ok none

/-- Cascade step 6 candidate: the previously stored record's truthy `ttclid`
(`transactions[transactionId] && transactions[transactionId].ttclid`). -/
def step6 (transactions : List (String × Json)) (key : String) : Option Json :=
  match storeGet transactions key with
  | some tx =>
      if tx.truthy then
        let t := tx.getProp "ttclid"
        if jsTruthy t then t else none
      else none
  | none => none

/-- One `if (!ttclid && candidate) { ttclid = candidate; ttclidSource = tag }`
update of the mutable resolution state. -/
def applyCandidate (cur : Option Json × Option String) (cand : Option Json)
    (tag : String) : Option Json × Option String :=
  if !(jsTruthy cur.1) && jsTruthy cand then (cand, some tag) else cur

/-- Cascade step 3 block: `if (!ttclid && payload.utmQuery) { const extracted =
extractTtclidFromUtmQuery(payload.utmQuery); if (extracted) { ... } }`; the
extraction throw is not caught here (it propagates to the handler's outer
catch). -/
def stage3 (payload : Json) (c2 : Option Json × Option String) :
    Except Unit (Option Json × Option String) :=
  match (if !(jsTruthy c2.1) && jsTruthy (payload.getProp "utmQuery") then
      extractTtclidFromUtmQuery (payload.getProp "utmQuery")
    else .ok none) with
  | .error e => .error e
  | .ok r3 => .ok (applyCandidate c2 r3 "utmQuery")

/-- Cascade step 4 block: `if (!ttclid && payload.metadata &&
payload.metadata.utmQuery) { ... }`; the extraction throw is not caught. -/
def stage4 (payload : Json) (c3 : Option Json × Option String) :
    Except Unit (Option Json × Option String) :=
  match (if !(jsTruthy c3.1) && jsTruthy (payload.getProp "metadata") &&
      jsTruthy (jsProp (payload.getProp "metadata") "utmQuery") then
      extractTtclidFromUtmQuery (jsProp (payload.getProp "metadata") "utmQuery")
    else .ok none) with
  | .error e => .error e
  | .ok r4 => .ok (applyCandidate c3 r4 "metadata_utmQuery")

/-- Cascade step 5 block: `if (!ttclid && payload.utm && typeof payload.utm ===
'string') { ... }`; on a regexp match the decoded value is assigned
unconditionally, and the decode throw is not caught. -/
def stage5 (payload : Json) (c4 : Option Json × Option String) :
    Except Unit (Option Json × Option String) :=
  match (if !(jsTruthy c4.1) then step5run payload else .ok none) with
  | .error e => .error e
  | .ok r5 =>
      .ok (match r5 with
        | some v => (some v, some "utm_query_string")
        | none => c4)

/-- Cascade steps 1-5 of the ttclid resolution in the webhook handler,
mirroring the sequence of guarded assignments. -/
def resolve15 (utmQueries : List (String × Json)) (key : String) (payload : Json) :
    Except Unit (Option Json × Option String) :=
  let c1 := applyCandidate (none, none) (step1 utmQueries key) "utm_queries_json"
  let c2 := applyCandidate c1 (payload.getProp "ttclid") "payload_direto"
  match stage3 payload c2 with
  | .error e => .error e
  | .ok c3 =>
    match stage4 payload c3 with
    | .error e => .error e
    | .ok c4 => stage5 payload c4

/-- Full ttclid resolution (steps 1-6). -/
def resolveTtclid (utmQueries transactions : List (String × Json)) (key : String)
    (payload : Json) : Except Unit (Option Json × Option String) :=
  match resolve15 utmQueries key payload with
  | .error e => .error e
  | .ok c5 => .ok (applyCandidate c5 (step6 transactions key) "transactions_json")

/-- Transaction id extraction: `payload.transaction_id`, then
`payload.transactionId`, then `payload._id.$oid`, then `payload._id` when it
is itself a string; first truthy match wins. -/
def extractTransactionId (payload : Json) : Option Json :=
  if jsTruthy (payload.getProp "transaction_id") then payload.getProp "transaction_id"
  else if jsTruthy (payload.getProp "transactionId") then payload.getProp "transactionId"
  else if jsTruthy (payload.getProp "_id") &&
      jsTruthy (jsProp (payload.getProp "_id") "$oid") then
    jsProp (payload.getProp "_id") "$oid"
  else
    match payload.getProp "_id" with
    | some (.str s) => if s != "" then some (.str s) else none
    | _ => none

/-- Paid-status list of the webhook handler. -/
def paidStatuses : List String :=
  ["confirmado", "pago", "paid", "completed", "aprovado", "approved", "COMPLETED"]

/-- `payload.status ? String(payload.status).trim() : null`. -/
def rawStatus (payload : Json) : Option String :=
  if jsTruthy (payload.getProp "status") then
    some (jsTrim (jsToString (payload.getProp "status")))
  else none

/-- `status ? status.toLowerCase() : ''`. -/
def statusLowerOf (st : Option String) : String :=
  match st with
  | some s => if s != "" then jsToLower s else ""
  | none => ""

/-- Paid determination of the webhook handler: for a truthy status string,
membership of the lowercased form or of the uppercased form in
`paidStatuses`. -/
def webhookIsPaid (st : Option String) (statusLower : String) : Bool :=
  match st with
  | some s =>
      if s != "" then
        paidStatuses.contains statusLower || paidStatuses.contains (jsToUpper s)
      else false
  | none => false

/-- Null-defaulting of an optional value (a JavaScript variable initialized
to `null`). -/
def orNull (v : Option Json) : Json :=
  v.getD .null

/-- Optional string rendered as a JSON string or `null`. -/
def strOrNull (s : Option String) : Json :=
  match s with
  | some x => .str x
  | none => .null

/-- Canonical transaction record written by the webhook handler, with the
source's field order; `undefined`-valued customer fields are dropped at
serialization. -/
def mkRecord (tidj vendorId : Json) (st : Option String) (statusLower : String)
    (valor descricao : Json) (cn ce cd ct : Option Json) (createdAt : Json)
    (now : String) (isPaid : Bool) (ttclid : Option Json) (ttclidSource : Option String)
    (payload : Json) (apiVersion : String) : Json :=
  .obj (
    [("transaction_id", tidj),
     ("vendor_id", vendorId),
     ("status", strOrNull st),
     ("status_lower", .str statusLower),
     ("valor", valor),
     ("amount", valor),
     ("descricao", descricao)]
    ++ optField "cliente_nome" cn
    ++ optField "cliente_email" ce
    ++ optField "cliente_documento" cd
    ++ optField "cliente_telefone" ct
    ++ [("created_at", createdAt),
        ("updated_at", .str now),
        ("paid", .bool isPaid),
        ("ttclid", orNull ttclid),
        ("ttclid_source", strOrNull ttclidSource),
        ("payload", payload),
        ("api_version", .str apiVersion)])

/-- Responses of the webhook handler: 400 when no transaction id can be
extracted, 500 when an uncaught exception reaches the outer catch, and the
200 success body `{success, transaction_id, status, paid}`. -/
inductive Response where
  | badRequest
  | internalError
  | ok (transaction_id : Json) (status : Option String) (paid : Bool)

/-- Record written by one webhook merge: every field is recomputed from the
incoming payload (per the source's field assignments), except that the
resolved `ttclid`/`ttclid_source` pair - the only place the previous record
can contribute - is passed in. -/
def recordOf (payload tidj : Json) (now : String) (ttclid : Option Json)
    (ttclidSource : Option String) : Json :=
  mkRecord tidj
    ((jsOr (payload.getProp "vendor_id") (some .null)).getD .null)
    (rawStatus payload)
    (statusLowerOf (rawStatus payload))
    ((jsOr (payload.getProp "valor")
        (jsOr (payload.getProp "amount") (some .null))).getD .null)
    ((jsOr (payload.getProp "descricao")
        (jsOr (jsAnd (payload.getProp "items") (jsProp (payload.getProp "items") "title"))
          (some .null))).getD .null)
    (if jsTruthy (payload.getProp "customer")
     then jsProp (payload.getProp "customer") "name"
     else payload.getProp "cliente_nome")
    (if jsTruthy (payload.getProp "customer")
     then jsProp (payload.getProp "customer") "email"
     else payload.getProp "cliente_email")
    (if jsTruthy (payload.getProp "customer")
     then jsProp (payload.getProp "customer") "document"
     else payload.getProp "cliente_documento")
    (if jsTruthy (payload.getProp "customer")
     then jsProp (payload.getProp "customer") "phone"
     else some Json.null)
    ((jsOr (payload.getProp "created_at") (some .null)).getD .null)
    now
    (webhookIsPaid (rawStatus payload) (statusLowerOf (rawStatus payload)))
    ttclid ttclidSource payload
    (if jsTruthy (payload.getProp "_id") || jsTruthy (payload.getProp "customer")
     then "railway" else "supabase")

/-- The webhook handler of `api/webhook.js` (POST path), as a function from
the two stores and the payload to a response and the updated transaction
store.  `now` abstracts the Sao Paulo-rendered timestamp. -/
def handler (utmQueries transactions : List (String × Json)) (payload : Json)
    (now : String) : Response × List (String × Json) :=
  match extractTransactionId payload with
  | none => (.badRequest, transactions)
  | some tidj =>
      match resolveTtclid utmQueries transactions (jsToStringJ tidj) payload with
      | .error _ => (.internalError, transactions)
      | .ok (ttclid, ttclidSource) =>
          (.ok tidj (rawStatus payload)
             (webhookIsPaid (rawStatus payload) (statusLowerOf (rawStatus payload))),
           storeSet transactions (jsToStringJ tidj)
             (recordOf payload tidj now ttclid ttclidSource))

end Webhook

namespace VerifyPayment

/-- Paid-status list of `api/verifyPayment.js` (`isPaidStatus`). -/
def paidStatuses : List String :=
  ["confirmado", "pago", "paid", "completed", "aprovado", "approved", "COMPLETED"]

/-- `isPaidStatus(status)` from `api/verifyPayment.js`: falsy status is not
paid; otherwise the raw, uppercased and lowercased forms are each tested
against the list. -/
def isPaidStatus (status : String) : Bool :=
  if status == "" then false
  else
    paidStatuses.contains status || paidStatuses.contains (jsToUpper status) ||
      paidStatuses.contains (jsToLower status)

/-- Own entries of the status mapping object literal of the polling
handler. -/
def statusMap : List (String × String) :=
  [("pendente", "pending"), ("waiting_payment", "pending"),
   ("canceled", "canceled"), ("refunded", "refunded")]

/-- Member names of `Object.prototype`: a bracket lookup on a bare object
literal that misses every own key still finds these on the prototype chain,
and each of them is bound to a truthy value (a built-in function, or
`Object.prototype` itself for `__proto__`). -/
def objectProtoKeys : List String :=
  ["constructor", "hasOwnProperty", "isPrototypeOf", "propertyIsEnumerable",
   "toLocaleString", "toString", "valueOf", "__defineGetter__",
   "__defineSetter__", "__lookupGetter__", "__lookupSetter__", "__proto__"]

/-- Result of the JavaScript lookup `statusMap[status]`: an own entry (a
string from the table), a truthy non-string value inherited from
`Object.prototype`, or `undefined`. -/
inductive StatusMapHit where
  | own (v : String)
  | inherited (k : String)
  | missing

/-- The JavaScript lookup `statusMap[status]`: own keys first, then the
prototype chain. -/
def statusMapGet (status : String) : StatusMapHit :=
  match List.lookup status statusMap with
  | some v => .own v
  | none =>
      if objectProtoKeys.contains status then .inherited status else .missing

/-- Value held by `mappedStatus` after the mapping block: a string in the
normal flow, or - when `status` names an `Object.prototype` member, so that
`if (statusMap[status])` sees a truthy inherited value - that non-string
built-in value, recorded by its key. -/
inductive MappedStatus where
  | str (s : String)
  | protoValue (k : String)
deriving DecidableEq

/-- Canonical display status: `paid` when the paid flag is set; otherwise
`if (statusMap[status]) mappedStatus = statusMap[status]` - an own table
entry when one exists, the truthy inherited value for an `Object.prototype`
member name, and the status itself (the `undefined` lookup is falsy) for
anything else. -/
def mapStatus (status : String) (isPaid : Bool) : MappedStatus :=
  if isPaid then .str "paid"
  else
    match statusMapGet status with
    | .own m => .str m
    | .inherited k => .protoValue k
    | .missing => .str status

/-- Linear scan of the store values comparing `transaction_id` and
`payment_id` with JavaScript `==` (the `for (const key in transactions)`
loop; association-list order stands in for JavaScript enumeration order,
which is irrelevant to the analysed not-found path). -/
def scanLookup : List (String × Json) → Option Json → Option Json
  | [], _ => none
  | (_, tx) :: rest, sk =>
      if looseEq (tx.getProp "transaction_id") sk ||
          looseEq (tx.getProp "payment_id") sk then some tx
      else scanLookup rest sk

/-- Local store lookup: exact (string-coerced) key first, then the linear
scan. -/
def localLookup (transactions : List (String × Json)) (searchKey : Option Json) :
    Option Json :=
  match storeGet transactions (jsToString searchKey) with
  | some v => if v.truthy then some v else scanLookup transactions searchKey
  | none => scanLookup transactions searchKey

/-- Transaction body of a successful poll response. -/
def txBody (tr : Json) (mapped : String) : Json :=
  .obj [("id", (jsOr (tr.getProp "transaction_id") (some .null)).getD .null),
        ("transaction_id", (jsOr (tr.getProp "transaction_id") (some .null)).getD .null),
        ("payment_id", (jsOr (tr.getProp "payment_id") (some .null)).getD .null),
        ("status", .str mapped),
        ("valor", (jsOr (tr.getProp "valor")
            (jsOr (tr.getProp "amount") (some .null))).getD .null),
        ("amount", (jsOr (tr.getProp "valor")
            (jsOr (tr.getProp "amount") (some .null))).getD .null),
        ("updated_at", (jsOr (tr.getProp "updated_at") (some .null)).getD .null)]

/-- Responses of the polling handler: 400 when both ids are missing, 500 for
an uncaught exception, the 200 body `{success:true, status, paid,
transaction?}`, and `successInherited` for the 200 body whose `status`
fields carry the non-string value inherited from `Object.prototype` (a
built-in function is dropped by `JSON.stringify`; `__proto__` serializes as
an empty object). -/
inductive Response where
  | badRequest
  | internalError
  | success (status : String) (paid : Bool) (transaction : Option Json)
  | successInherited (key : String) (paid : Bool)

/-- The polling handler of `api/verifyPayment.js` (POST path).  The awaited
result of the network fallback `checkPaymentViaAPI` is passed in as
`remote` (its `resolve(null)` outcomes - timeout, transport error, non-200,
unparseable body - are `none`).  A truthy non-string stored `status` would
make `.toLowerCase()` throw, surfacing as the 500 branch. -/
def handler (transactions : List (String × Json)) (remote : Option Json)
    (body : Json) : Response :=
  let transactionId := body.getProp "id"
  let paymentId := body.getProp "payment_id"
  if !(jsTruthy transactionId) && !(jsTruthy paymentId) then .badRequest
  else
    let searchKey := jsOr transactionId paymentId
    let transaction :=
      match localLookup transactions searchKey with
      | some t => some t
      | none => remote
    match transaction with
    | some tr =>
        match jsOr (tr.getProp "status") (some (.str "pending")) with
        | some (.str s) =>
            let status := jsToLower s
            let isPaid :=
              match tr.getProp "paid" with
              | some v => v.truthy
              | none => isPaidStatus status
            match mapStatus status isPaid with
            | .str m => .success m isPaid (some (txBody tr m))
            | .protoValue k => .successInherited k isPaid
        | _ => .internalError
    | none => .success "pending" false none

end VerifyPayment

namespace Spec

/-- Modelled from the spec (section 4.1 decoding rule): the dual
parse-as-object-then-as-query-string extraction in which a malformed
percent-encoding fails that attempt only, making the source a non-match
instead of throwing. -/
def specExtract (v : Option Json) : Option Json :=
  match Webhook.extractTtclidFromUtmQuery v with
  | .ok r => if jsTruthy r then r else none
  | .error _ => none

/-- Modelled from the spec (section 4.1 step 5): `payload.utm`, only when a
plain string, searched as a raw query string, a malformed escape being a
non-match. -/
def specStep5 (payload : Json) : Option Json :=
  match payload.getProp "utm" with
  | some (.str u) =>
      if u != "" then
        match regexExecTtclid u.data with
        | some cap =>
            match percentDecode cap with
            | some d => some (.str (String.mk d))
            | none => none
        | none => none
      else none
  | _ => none

/-- Modelled from the spec (section 4.1): first non-empty match over steps
1-5 of the priority cascade. -/
def spec15 (utmQueries : List (String × Json)) (key : String) (payload : Json) :
    Option Json × Option String :=
  match Webhook.step1 utmQueries key with
  | some v => (some v, some "utm_queries_json")
  | none =>
      if jsTruthy (payload.getProp "ttclid") then
        (payload.getProp "ttclid", some "payload_direto")
      else
        match specExtract (payload.getProp "utmQuery") with
        | some v => (some v, some "utmQuery")
        | none =>
            match specExtract (jsProp (payload.getProp "metadata") "utmQuery") with
            | some v => (some v, some "metadata_utmQuery")
            | none =>
                match specStep5 payload with
                | some v => (some v, some "utm_query_string")
                | none => (none, none)

/-- Modelled from the spec (section 4.1): the full strict priority cascade,
first non-empty source in order 1-6, `(null, null)` when every source
fails. -/
def specResolveTtclid (utmQueries transactions : List (String × Json)) (key : String)
    (payload : Json) : Option Json × Option String :=
  let r := spec15 utmQueries key payload
  match r.1 with
  | some _ => r
  | none =>
      match Webhook.step6 transactions key with
      | some v => (some v, some "transactions_json")
      | none => (none, none)

end Spec

section Lemmas

open Webhook

theorem jsTruthy_none : jsTruthy none = false := rfl

theorem jsTruthy_some (j : Json) : jsTruthy (some j) = j.truthy := rfl

theorem applyCandidate_keep (cur : Option Json × Option String) (cand : Option Json)
    (tag : String) (h : jsTruthy cur.1 = true) :
    applyCandidate cur cand tag = cur := by
  simp [applyCandidate, h]

theorem applyCandidate_skip (cur : Option Json × Option String) (cand : Option Json)
    (tag : String) (h : jsTruthy cand = false) :
    applyCandidate cur cand tag = cur := by
  simp [applyCandidate, h]

theorem applyCandidate_set (cur : Option Json × Option String) (cand : Option Json)
    (tag : String) (h : jsTruthy cur.1 = false) (h2 : jsTruthy cand = true) :
    applyCandidate cur cand tag = (cand, some tag) := by
  simp [applyCandidate, h, h2]

theorem step1_truthy {uq : List (String × Json)} {key : String} {v : Json}
    (h : step1 uq key = some v) : v.truthy = true := by
  unfold step1 at h
  rcases hb : storedUtmBlob uq key with _ | blob
  · simp [hb] at h
  · simp only [hb] at h
    rcases he : extractTtclidFromUtmQuery (some blob) with e | r
    · simp [he] at h
    · simp only [he] at h
      by_cases ht : jsTruthy r = true
      · simp [ht] at h
        rw [h] at ht
        exact ht
      · simp [ht] at h

theorem step6_truthy {tx : List (String × Json)} {key : String} {v : Json}
    (h : step6 tx key = some v) : v.truthy = true := by
  unfold step6 at h
  rcases hb : storeGet tx key with _ | rec
  · simp [hb] at h
  · simp only [hb] at h
    by_cases hr : rec.truthy = true
    · by_cases ht : jsTruthy (rec.getProp "ttclid") = true
      · simp [hr, ht] at h
        rw [h] at ht
        exact ht
      · simp [hr, ht] at h
    · simp [hr] at h

theorem extract_falsy {v : Option Json} (h : jsTruthy v = false) :
    extractTtclidFromUtmQuery v = .ok none := by
  simp [extractTtclidFromUtmQuery, h]

theorem percentDecode_ne_nil : ∀ {cs d : List Char},
    percentDecode cs = some d → cs ≠ [] → d ≠ [] := by
  intro cs d h hne
  unfold percentDecode at h
  split at h
  · exact absurd rfl hne
  · split at h
    · split at h
      · simp only [Option.some.injEq] at h
        intro hd
        rw [hd] at h
        exact absurd h.symm (by simp)
      · exact absurd h (by simp)
    · exact absurd h (by simp)
  · exact absurd h (by simp)
  · split at h
    · simp only [Option.some.injEq] at h
      intro hd
      rw [hd] at h
      exact absurd h.symm (by simp)
    · exact absurd h (by simp)

theorem regexExec_ne_nil : ∀ {cs cap : List Char},
    regexExecTtclid cs = some cap → cap ≠ [] := by
  intro cs
  induction cs with
  | nil => intro cap h; exact absurd h (by simp [regexExecTtclid])
  | cons c rest ih =>
    intro cap h
    unfold regexExecTtclid at h
    by_cases hs : startsWithTtclid (c :: rest) = true
    · rw [if_pos hs] at h
      by_cases he : (((c :: rest).drop 7).takeWhile ttclidTokenChar).isEmpty = true
      · rw [if_pos he] at h
        exact ih h
      · rw [if_neg he] at h
        simp only [Option.some.injEq] at h
        intro hc
        rw [hc] at h
        rw [h] at he
        exact he (by simp)
    · rw [if_neg hs] at h
      exact ih h

theorem String.mk_ne_empty {d : List Char} (h : d ≠ []) :
    ((String.mk d) != "") = true := by
  simp only [bne_iff_ne, ne_eq, String.ext_iff]
  exact h

theorem extractViaQueryString_some_truthy {s : String} {v : Json}
    (h : extractViaQueryString s = .ok (some v)) : v.truthy = true := by
  unfold extractViaQueryString at h
  rcases hr : regexExecTtclid s.data with _ | cap
  · simp [hr] at h
  · simp only [hr] at h
    rcases hd : percentDecode cap with _ | d
    · simp [hd] at h
    · simp only [hd, Except.ok.injEq, Option.some.injEq] at h
      have hcap : cap ≠ [] := regexExec_ne_nil hr
      have hdne : d ≠ [] := percentDecode_ne_nil hd hcap
      rw [← h]
      simpa [Json.truthy] using String.mk_ne_empty hdne

theorem extract_ok_some_truthy {x : Option Json} {v : Json}
    (h : extractTtclidFromUtmQuery x = .ok (some v)) : v.truthy = true := by
  unfold extractTtclidFromUtmQuery at h
  by_cases hx : jsTruthy x = true
  · simp only [hx, Bool.not_true, Bool.false_eq_true, if_false] at h
    rcases hp : jsonParse (jsToString x) with _ | decoded
    · simp only [hp] at h
      exact extractViaQueryString_some_truthy h
    · simp only [hp] at h
      by_cases hc : (decoded.truthy && jsTruthy (decoded.getProp "ttclid")) = true
      · simp only [hc, if_true, Except.ok.injEq] at h
        have h2 := (Bool.and_eq_true _ _).mp hc |>.2
        rw [h] at h2
        exact h2
      · simp only [hc, Bool.false_eq_true, if_false] at h
        exact extractViaQueryString_some_truthy h
  · simp only [Bool.eq_false_iff.mpr hx, Bool.not_false, if_true] at h
    simp at h

theorem step5run_ok_some_truthy {p : Json} {v : Json}
    (h : step5run p = .ok (some v)) : v.truthy = true := by
  unfold step5run at h
  split at h
  · rename_i u heq
    split at h
    · exact extractViaQueryString_some_truthy h
    · exact absurd h (by simp)
  · exact absurd h (by simp)

end Lemmas

section CascadeSpec

open Webhook

theorem jsProp_falsy {o : Option Json} {k : String} (h : jsTruthy o = false) :
    jsProp o k = none := by
  rcases o with _ | j
  · rfl
  · cases j <;> first
      | rfl
      | simp [jsTruthy, Json.truthy] at h

theorem step5run_to_spec {p : Json} {r : Option Json} (h : step5run p = .ok r) :
    Spec.specStep5 p = r := by
  unfold step5run at h
  unfold Spec.specStep5
  split at h
  · rename_i u heq
    by_cases hu : (u != "") = true
    · rw [if_pos hu] at h
      rw [if_pos hu]
      unfold extractViaQueryString at h
      rcases hr : regexExecTtclid u.data with _ | cap
      · simp [hr] at h ⊢
        exact h
      · simp only [hr] at h ⊢
        rcases hd : percentDecode cap with _ | d
        · simp [hd] at h
        · simp only [hd] at h ⊢
          simp only [Except.ok.injEq] at h
          exact h
    · rw [if_neg hu] at h
      rw [if_neg hu]
      simp only [Except.ok.injEq] at h
      exact h
  · simp only [Except.ok.injEq] at h
    exact h

theorem specExtract_some_truthy {x : Option Json} {v : Json}
    (h : Spec.specExtract x = some v) : v.truthy = true := by
  unfold Spec.specExtract at h
  rcases he : extractTtclidFromUtmQuery x with e | r
  · simp [he] at h
  · simp only [he] at h
    by_cases ht : jsTruthy r = true
    · rw [if_pos ht] at h
      rw [h] at ht
      exact ht
    · rw [if_neg ht] at h
      simp at h

theorem specStep5_some_truthy {p : Json} {v : Json}
    (h : Spec.specStep5 p = some v) : v.truthy = true := by
  unfold Spec.specStep5 at h
  split at h
  · rename_i u heq
    by_cases hu : (u != "") = true
    · rw [if_pos hu] at h
      rcases hr : regexExecTtclid u.data with _ | cap
      · simp [hr] at h
      · simp only [hr] at h
        rcases hd : percentDecode cap with _ | d
        · simp [hd] at h
        · simp only [hd, Option.some.injEq] at h
          have hcap : cap ≠ [] := regexExec_ne_nil hr
          have hdne : d ≠ [] := percentDecode_ne_nil hd hcap
          rw [← h]
          simpa [Json.truthy] using String.mk_ne_empty hdne
    · rw [if_neg hu] at h
      simp at h
  · simp at h

theorem stage3_keep {p : Json} {c : Option Json × Option String}
    (hc : jsTruthy c.1 = true) : stage3 p c = .ok c := by
  unfold stage3
  rw [if_neg (by simp [hc])]
  simp [applyCandidate, jsTruthy_none]

theorem stage4_keep {p : Json} {c : Option Json × Option String}
    (hc : jsTruthy c.1 = true) : stage4 p c = .ok c := by
  unfold stage4
  rw [if_neg (by simp [hc])]
  simp [applyCandidate, jsTruthy_none]

theorem stage5_keep {p : Json} {c : Option Json × Option String}
    (hc : jsTruthy c.1 = true) : stage5 p c = .ok c := by
  unfold stage5
  rw [if_neg (by simp [hc])]

theorem specExtract_none_input : Spec.specExtract none = none := by
  have h0 : jsTruthy (none : Option Json) = false := rfl
  simp [Spec.specExtract, extract_falsy h0]

theorem stage3_spec {p : Json} {c2 r : Option Json × Option String}
    (hc : jsTruthy c2.1 = false) (h : stage3 p c2 = .ok r) :
    r = (match Spec.specExtract (p.getProp "utmQuery") with
         | some w => (some w, some "utmQuery")
         | none => c2) := by
  unfold stage3 at h
  by_cases h3 : jsTruthy (p.getProp "utmQuery") = true
  · rw [if_pos (by simp [hc, h3])] at h
    rcases hE : extractTtclidFromUtmQuery (p.getProp "utmQuery") with e | r3
    · simp [hE] at h
    · simp only [hE, Except.ok.injEq] at h
      unfold Spec.specExtract
      simp only [hE]
      by_cases hr3 : jsTruthy r3 = true
      · rcases r3 with _ | w3
        · exact absurd hr3 (by simp [jsTruthy_none])
        · rw [applyCandidate_set c2 (some w3) _ hc hr3] at h
          rw [if_pos hr3]
          exact h.symm
      · rw [applyCandidate_skip c2 r3 _ (by simpa using hr3)] at h
        rw [if_neg hr3]
        exact h.symm
  · rw [if_neg (by simp [h3])] at h
    simp only [Except.ok.injEq] at h
    rw [applyCandidate_skip c2 none _ rfl] at h
    rw [Bool.not_eq_true] at h3
    unfold Spec.specExtract
    simp only [extract_falsy h3]
    exact h.symm

theorem stage4_spec {p : Json} {c3 r : Option Json × Option String}
    (hc : jsTruthy c3.1 = false) (h : stage4 p c3 = .ok r) :
    r = (match Spec.specExtract (jsProp (p.getProp "metadata") "utmQuery") with
         | some w => (some w, some "metadata_utmQuery")
         | none => c3) := by
  unfold stage4 at h
  by_cases hmd : jsTruthy (p.getProp "metadata") = true
  · by_cases hmq : jsTruthy (jsProp (p.getProp "metadata") "utmQuery") = true
    · rw [if_pos (by simp [hc, hmd, hmq])] at h
      rcases hE : extractTtclidFromUtmQuery (jsProp (p.getProp "metadata") "utmQuery")
        with e | r4
      · simp [hE] at h
      · simp only [hE, Except.ok.injEq] at h
        unfold Spec.specExtract
        simp only [hE]
        by_cases hr4 : jsTruthy r4 = true
        · rcases r4 with _ | w4
          · exact absurd hr4 (by simp [jsTruthy_none])
          · rw [applyCandidate_set c3 (some w4) _ hc hr4] at h
            rw [if_pos hr4]
            exact h.symm
        · rw [applyCandidate_skip c3 r4 _ (by simpa using hr4)] at h
          rw [if_neg hr4]
          exact h.symm
    · rw [if_neg (by simp [hmq])] at h
      simp only [Except.ok.injEq] at h
      rw [applyCandidate_skip c3 none _ rfl] at h
      rw [Bool.not_eq_true] at hmq
      unfold Spec.specExtract
      simp only [extract_falsy hmq]
      exact h.symm
  · rw [if_neg (by simp [hmd])] at h
    simp only [Except.ok.injEq] at h
    rw [applyCandidate_skip c3 none _ rfl] at h
    rw [Bool.not_eq_true] at hmd
    rw [jsProp_falsy hmd, specExtract_none_input]
    exact h.symm

theorem stage5_spec {p : Json} {c4 r : Option Json × Option String}
    (hc : jsTruthy c4.1 = false) (h : stage5 p c4 = .ok r) :
    r = (match Spec.specStep5 p with
         | some w => (some w, some "utm_query_string")
         | none => c4) := by
  unfold stage5 at h
  rw [if_pos (by simp [hc])] at h
  rcases h5 : step5run p with e | r5
  · simp [h5] at h
  · simp only [h5, Except.ok.injEq] at h
    rw [step5run_to_spec h5]
    rcases r5 with _ | w <;> exact h.symm

theorem resolve15_ok_spec {uq : List (String × Json)} {key : String} {p : Json}
    {c : Option Json × Option String} (h : resolve15 uq key p = .ok c) :
    c = Spec.spec15 uq key p := by
  unfold resolve15 at h
  unfold Spec.spec15
  rcases h1 : step1 uq key with _ | v
  · have hc1 : applyCandidate (none, none) (step1 uq key) "utm_queries_json"
        = (none, none) := by
      rw [h1]; exact applyCandidate_skip _ _ _ rfl
    simp only [hc1] at h
    by_cases h2 : jsTruthy (p.getProp "ttclid") = true
    · have hc2 : applyCandidate (none, none) (p.getProp "ttclid") "payload_direto"
          = (p.getProp "ttclid", some "payload_direto") :=
        applyCandidate_set _ _ _ rfl h2
      rw [hc2] at h
      rw [stage3_keep h2] at h
      simp only [] at h
      rw [stage4_keep h2] at h
      simp only [] at h
      rw [stage5_keep h2] at h
      simp only [Except.ok.injEq] at h
      rw [if_pos h2]
      exact h.symm
    · have hc2 : applyCandidate (none, none) (p.getProp "ttclid") "payload_direto"
          = (none, none) :=
        applyCandidate_skip _ _ _ (by simpa using h2)
      rw [hc2] at h
      rw [if_neg h2]
      rcases hs3 : stage3 p (none, none) with e3 | c3
      · rw [hs3] at h; simp at h
      · rw [hs3] at h
        simp only [] at h
        have hnn : jsTruthy ((none, none) : Option Json × Option String).1 = false := rfl
        have hc3 := stage3_spec hnn hs3
        rcases hE3 : Spec.specExtract (p.getProp "utmQuery") with _ | w3
        · rw [hE3] at hc3
          simp only [] at hc3
          subst hc3
          rcases hs4 : stage4 p (none, none) with e4 | c4
          · rw [hs4] at h; simp at h
          · rw [hs4] at h
            simp only [] at h
            have hc4 := stage4_spec hnn hs4
            rcases hE4 : Spec.specExtract (jsProp (p.getProp "metadata") "utmQuery")
              with _ | w4
            · rw [hE4] at hc4
              simp only [] at hc4
              subst hc4
              rcases hs5 : stage5 p (none, none) with e5 | c5
              · rw [hs5] at h; simp at h
              · rw [hs5] at h
                simp only [Except.ok.injEq] at h
                have hc5 := stage5_spec hnn hs5
                rcases hE5 : Spec.specStep5 p with _ | w5
                · rw [hE5] at hc5
                  simp only [] at hc5
                  simp only [hE3, hE4, hE5]
                  rw [← h]
                  exact hc5
                · rw [hE5] at hc5
                  simp only [] at hc5
                  simp only [hE3, hE4, hE5]
                  rw [← h]
                  exact hc5
            · rw [hE4] at hc4
              simp only [] at hc4
              subst hc4
              have hw4 : jsTruthy (some w4) = true := specExtract_some_truthy hE4
              rw [stage5_keep hw4] at h
              simp only [Except.ok.injEq] at h
              simp only [hE3, hE4]
              exact h.symm
        · rw [hE3] at hc3
          simp only [] at hc3
          subst hc3
          have hw3 : jsTruthy (some w3) = true := specExtract_some_truthy hE3
          rw [stage4_keep hw3] at h
          simp only [] at h
          rw [stage5_keep hw3] at h
          simp only [Except.ok.injEq] at h
          simp only [hE3]
          exact h.symm
  · have hv : jsTruthy (some v) = true := step1_truthy h1
    have hc1 : applyCandidate (none, none) (step1 uq key) "utm_queries_json"
        = (some v, some "utm_queries_json") := by
      rw [h1]; exact applyCandidate_set _ _ _ rfl hv
    simp only [hc1] at h
    have hc2 : applyCandidate (some v, some "utm_queries_json") (p.getProp "ttclid")
        "payload_direto" = (some v, some "utm_queries_json") :=
      applyCandidate_keep _ _ _ hv
    rw [hc2] at h
    rw [stage3_keep hv] at h
    simp only [] at h
    rw [stage4_keep hv] at h
    simp only [] at h
    rw [stage5_keep hv] at h
    simp only [Except.ok.injEq] at h
    exact h.symm

theorem spec15_sound (uq : List (String × Json)) (key : String) (p : Json) :
    Spec.spec15 uq key p = (none, none) ∨
    ∃ v tag, Spec.spec15 uq key p = (some v, some tag) ∧ v.truthy = true := by
  unfold Spec.spec15
  rcases h1 : step1 uq key with _ | v
  · by_cases h2 : jsTruthy (p.getProp "ttclid") = true
    · rw [if_pos h2]
      right
      rcases hp : p.getProp "ttclid" with _ | w
      · rw [hp] at h2
        simp [jsTruthy_none] at h2
      · rw [hp] at h2
        exact ⟨w, "payload_direto", rfl, h2⟩
    · rw [if_neg h2]
      rcases hE3 : Spec.specExtract (p.getProp "utmQuery") with _ | w3
      · rcases hE4 : Spec.specExtract (jsProp (p.getProp "metadata") "utmQuery")
          with _ | w4
        · rcases hE5 : Spec.specStep5 p with _ | w5
          · left
            rfl
          · right
            exact ⟨w5, "utm_query_string", rfl, specStep5_some_truthy hE5⟩
        · right
          exact ⟨w4, "metadata_utmQuery", rfl, specExtract_some_truthy hE4⟩
      · right
        exact ⟨w3, "utmQuery", rfl, specExtract_some_truthy hE3⟩
  · right
    exact ⟨v, "utm_queries_json", rfl, step1_truthy h1⟩

theorem resolveTtclid_spec (uq tx : List (String × Json)) (key : String) (p : Json) :
    resolveTtclid uq tx key p = .error () ∨
    resolveTtclid uq tx key p = .ok (Spec.specResolveTtclid uq tx key p) := by
  unfold resolveTtclid
  rcases h15 : resolve15 uq key p with e | c5
  · left
    cases e
    rfl
  · right
    have hs := resolve15_ok_spec h15
    unfold Spec.specResolveTtclid
    rcases spec15_sound uq key p with hW | ⟨v, tag, hW, hv⟩
    · rw [hW] at hs
      subst hs
      simp only [hW]
      rcases h6 : step6 tx key with _ | w
      · rw [applyCandidate_skip (none, none) none "transactions_json" rfl]
      · have hw : jsTruthy (some w) = true := step6_truthy h6
        rw [applyCandidate_set (none, none) (some w) "transactions_json" rfl hw]
    · rw [hW] at hs
      subst hs
      simp only [hW]
      rw [applyCandidate_keep (some v, some tag) (step6 tx key) "transactions_json" hv]

theorem storeGet_storeSet_self (tx : List (String × Json)) (key : String) (v : Json) :
    storeGet (storeSet tx key v) key = some v := by
  induction tx with
  | nil => simp [storeGet, storeSet, List.lookup]
  | cons hd rest ih =>
    rcases hd with ⟨k, w⟩
    by_cases hk : k = key
    · simp [storeSet, hk, storeGet, List.lookup]
    · simp only [storeSet, hk, if_false]
      simp only [storeGet, List.lookup] at ih ⊢
      have : (key == k) = false := by
        simp [Ne.symm hk]
      rw [this]
      exact ih

theorem mkRecord_getProp_ttclid (tidj vendorId : Json) (st : Option String)
    (statusLower : String) (valor descricao : Json) (cn ce cd ct : Option Json)
    (createdAt : Json) (now : String) (isPaid : Bool) (ttclid : Option Json)
    (ttclidSource : Option String) (payload : Json) (apiVersion : String) :
    (Webhook.mkRecord tidj vendorId st statusLower valor descricao cn ce cd ct
        createdAt now isPaid ttclid ttclidSource payload apiVersion).getProp "ttclid"
      = some (Webhook.orNull ttclid) := by
  cases cn <;> cases ce <;> cases cd <;> cases ct <;> rfl

theorem mkRecord_truthy (tidj vendorId : Json) (st : Option String)
    (statusLower : String) (valor descricao : Json) (cn ce cd ct : Option Json)
    (createdAt : Json) (now : String) (isPaid : Bool) (ttclid : Option Json)
    (ttclidSource : Option String) (payload : Json) (apiVersion : String) :
    (Webhook.mkRecord tidj vendorId st statusLower valor descricao cn ce cd ct
        createdAt now isPaid ttclid ttclidSource payload apiVersion).truthy = true := rfl

theorem mkRecord_erase_updatedAt (tidj vendorId : Json) (st : Option String)
    (statusLower : String) (valor descricao : Json) (cn ce cd ct : Option Json)
    (createdAt : Json) (now1 now2 : String) (isPaid : Bool) (ttclid : Option Json)
    (ttclidSource : Option String) (payload : Json) (apiVersion : String) :
    (Webhook.mkRecord tidj vendorId st statusLower valor descricao cn ce cd ct
        createdAt now1 isPaid ttclid ttclidSource payload apiVersion).eraseProp
        "updated_at"
      = (Webhook.mkRecord tidj vendorId st statusLower valor descricao cn ce cd ct
        createdAt now2 isPaid ttclid ttclidSource payload apiVersion).eraseProp
        "updated_at" := by
  cases cn <;> cases ce <;> cases cd <;> cases ct <;> rfl

theorem mkRecord_erase_ttclid_src (tidj vendorId : Json) (st : Option String)
    (statusLower : String) (valor descricao : Json) (cn ce cd ct : Option Json)
    (createdAt : Json) (now : String) (isPaid : Bool) (t1 t2 : Option Json)
    (s1 s2 : Option String) (payload : Json) (apiVersion : String) :
    (((Webhook.mkRecord tidj vendorId st statusLower valor descricao cn ce cd ct
        createdAt now isPaid t1 s1 payload apiVersion).eraseProp
        "ttclid").eraseProp "ttclid_source")
      = (((Webhook.mkRecord tidj vendorId st statusLower valor descricao cn ce cd ct
        createdAt now isPaid t2 s2 payload apiVersion).eraseProp
        "ttclid").eraseProp "ttclid_source") := by
  cases cn <;> cases ce <;> cases cd <;> cases ct <;> rfl

theorem recordOf_getProp_ttclid (p tidj : Json) (now : String) (t : Option Json)
    (s : Option String) :
    (Webhook.recordOf p tidj now t s).getProp "ttclid"
      = some (Webhook.orNull t) := by
  unfold Webhook.recordOf
  apply mkRecord_getProp_ttclid

theorem recordOf_truthy (p tidj : Json) (now : String) (t : Option Json)
    (s : Option String) : (Webhook.recordOf p tidj now t s).truthy = true := rfl

theorem recordOf_erase_updatedAt (p tidj : Json) (n1 n2 : String) (t : Option Json)
    (s : Option String) :
    (Webhook.recordOf p tidj n1 t s).eraseProp "updated_at"
      = (Webhook.recordOf p tidj n2 t s).eraseProp "updated_at" := by
  unfold Webhook.recordOf
  apply mkRecord_erase_updatedAt

theorem recordOf_erase_ttclid_src (p tidj : Json) (now : String) (t1 t2 : Option Json)
    (s1 s2 : Option String) :
    (((Webhook.recordOf p tidj now t1 s1).eraseProp "ttclid").eraseProp "ttclid_source")
      = (((Webhook.recordOf p tidj now t2 s2).eraseProp "ttclid").eraseProp
          "ttclid_source") := by
  unfold Webhook.recordOf
  apply mkRecord_erase_ttclid_src

theorem handler_ok {uq tx : List (String × Json)} {p : Json} (now : String)
    {tidj : Json} {t : Option Json} {s : Option String}
    (htid : extractTransactionId p = some tidj)
    (hres : resolveTtclid uq tx (jsToStringJ tidj) p = .ok (t, s)) :
    Webhook.handler uq tx p now =
      (.ok tidj (rawStatus p) (webhookIsPaid (rawStatus p) (statusLowerOf (rawStatus p))),
       storeSet tx (jsToStringJ tidj) (Webhook.recordOf p tidj now t s)) := by
  unfold Webhook.handler
  simp only [htid, hres]

theorem handler_error {uq tx : List (String × Json)} {p : Json} (now : String)
    {tidj : Json} (htid : extractTransactionId p = some tidj)
    (hres : resolveTtclid uq tx (jsToStringJ tidj) p = .error ()) :
    Webhook.handler uq tx p now = (.internalError, tx) := by
  unfold Webhook.handler
  simp only [htid, hres]

theorem handler_badRequest {uq tx : List (String × Json)} {p : Json} {now : String}
    (htid : extractTransactionId p = none) :
    Webhook.handler uq tx p now = (.badRequest, tx) := by
  unfold Webhook.handler
  simp only [htid]

theorem handler_ok_inv {uq tx : List (String × Json)} {p : Json} {now : String}
    {a : Json} {b : Option String} {c : Bool} {tx' : List (String × Json)}
    (h : Webhook.handler uq tx p now = (.ok a b c, tx')) :
    ∃ tidj t s, extractTransactionId p = some tidj ∧
      resolveTtclid uq tx (jsToStringJ tidj) p = .ok (t, s) ∧
      a = tidj ∧ b = rawStatus p ∧
      c = webhookIsPaid (rawStatus p) (statusLowerOf (rawStatus p)) ∧
      tx' = storeSet tx (jsToStringJ tidj) (Webhook.recordOf p tidj now t s) := by
  unfold Webhook.handler at h
  rcases htid : extractTransactionId p with _ | tidj
  · simp only [htid] at h
    simp at h
  · simp only [htid] at h
    rcases hres : resolveTtclid uq tx (jsToStringJ tidj) p with e | ts
    · simp only [hres] at h
      simp at h
    · rcases ts with ⟨t, s⟩
      simp only [hres] at h
      simp only [Prod.mk.injEq, Webhook.Response.ok.injEq] at h
      exact ⟨tidj, t, s, rfl, hres, h.1.1.symm, h.1.2.1.symm, h.1.2.2.symm, h.2.symm⟩

theorem step6_storeSet {tx : List (String × Json)} {key : String} {rec f : Json}
    (hrec : rec.truthy = true) (h : rec.getProp "ttclid" = some f) :
    step6 (storeSet tx key rec) key = (if f.truthy = true then some f else none) := by
  unfold step6
  rw [storeGet_storeSet_self]
  simp only [hrec, if_true, h]
  rfl

theorem resolveTtclid_after_merge {uq tx : List (String × Json)} {key : String}
    {p : Json} {t : Option Json} {s : Option String} {rec : Json}
    (hres : resolveTtclid uq tx key p = .ok (t, s))
    (hrec : rec.truthy = true)
    (httc : rec.getProp "ttclid" = some (orNull t)) :
    resolveTtclid uq (storeSet tx key rec) key p = .ok (t, s) := by
  unfold resolveTtclid at hres ⊢
  rcases h15 : resolve15 uq key p with e | c5
  · simp only [h15] at hres
    simp at hres
  · simp only [h15] at hres ⊢
    simp only [Except.ok.injEq] at hres
    by_cases hc : jsTruthy c5.1 = true
    · rw [applyCandidate_keep _ _ _ hc] at hres
      rw [applyCandidate_keep _ _ _ hc]
      rw [hres]
    · have hcf : jsTruthy c5.1 = false := by simpa using hc
      rcases h6 : step6 tx key with _ | w
      · rw [h6] at hres
        rw [applyCandidate_skip c5 none "transactions_json" rfl] at hres
        have hres1 : c5.1 = t := by rw [hres]
        have htf : (orNull t).truthy = false := by
          rcases ht : t with _ | v
          · rfl
          · have := hcf
            rw [hres1, ht] at this
            simpa [jsTruthy_some, orNull] using this
        rw [step6_storeSet hrec httc, htf]
        simp only [Bool.false_eq_true, if_false]
        rw [applyCandidate_skip c5 none "transactions_json" rfl]
        rw [hres]
      · have hw : jsTruthy (some w) = true := step6_truthy h6
        rw [h6] at hres
        rw [applyCandidate_set c5 (some w) "transactions_json" hcf hw] at hres
        have ht : t = some w := (congrArg Prod.fst hres).symm
        have hmatch : orNull t = w := by rw [ht]; rfl
        rw [step6_storeSet hrec httc, hmatch]
        rw [if_pos (show w.truthy = true from hw)]
        rw [applyCandidate_set c5 (some w) "transactions_json" hcf hw]
        rw [hres]

theorem step6_of_get {tx : List (String × Json)} {key : String} {rec w : Json}
    (hget : storeGet tx key = some rec) (hrect : rec.truthy = true)
    (hw : rec.getProp "ttclid" = some w) (hwt : w.truthy = true) :
    step6 tx key = some w := by
  unfold step6
  simp [hget, hrect, hw, jsTruthy_some, hwt]

theorem resolveTtclid_fallback {uq tx : List (String × Json)} {key : String}
    {p : Json} {rec w : Json}
    (h15 : resolve15 uq key p = .ok (none, none))
    (hget : storeGet tx key = some rec) (hrect : rec.truthy = true)
    (hw : rec.getProp "ttclid" = some w) (hwt : w.truthy = true) :
    resolveTtclid uq tx key p = .ok (some w, some "transactions_json") := by
  unfold resolveTtclid
  simp only [h15]
  rw [step6_of_get hget hrect hw hwt,
    applyCandidate_set (none, none) (some w) "transactions_json" rfl
      (show jsTruthy (some w) = true from hwt)]

theorem resolveTtclid_keeps_truthy {uq tx : List (String × Json)} {key : String}
    {p : Json} {t : Option Json} {s : Option String} {rec w : Json}
    (hget : storeGet tx key = some rec) (hrect : rec.truthy = true)
    (hw : rec.getProp "ttclid" = some w) (hwt : w.truthy = true)
    (hres : resolveTtclid uq tx key p = .ok (t, s)) :
    jsTruthy t = true := by
  unfold resolveTtclid at hres
  rcases h15 : resolve15 uq key p with e | c5
  · simp [h15] at hres
  · simp only [h15, Except.ok.injEq] at hres
    by_cases hc : jsTruthy c5.1 = true
    · rw [applyCandidate_keep _ _ _ hc] at hres
      have h1 : c5.1 = t := congrArg Prod.fst hres
      rw [← h1]
      exact hc
    · have hcf : jsTruthy c5.1 = false := by simpa using hc
      rw [step6_of_get hget hrect hw hwt,
        applyCandidate_set c5 (some w) "transactions_json" hcf
          (show jsTruthy (some w) = true from hwt)] at hres
      have h1 : (some w : Option Json) = t := congrArg Prod.fst hres
      rw [← h1]
      exact hwt

theorem char_toNat_ofNat (n : Nat) (h : n < 55296) : (Char.ofNat n).toNat = n := by
  have hv : n.isValidChar := Or.inl h
  simp only [Char.ofNat, hv, dif_pos, Char.ofNatAux, Char.toNat]
  simp [UInt32.toNat]

theorem toLower_toLower_char (c : Char) :
    Char.toLower (Char.toLower c) = Char.toLower c := by
  by_cases h : 65 ≤ c.toNat ∧ c.toNat ≤ 90
  · have hl : Char.toLower c = Char.ofNat (c.toNat + 32) := by
      simp only [Char.toLower]
      rw [if_pos h]
    have h1 : (Char.ofNat (c.toNat + 32)).toNat = c.toNat + 32 :=
      char_toNat_ofNat _ (by omega)
    rw [hl]
    simp only [Char.toLower, h1]
    rw [if_neg (by omega)]
  · simp only [Char.toLower]
    rw [if_neg h, if_neg h]

theorem toLower_toUpper_char (c : Char) :
    Char.toLower (Char.toUpper c) = Char.toLower c := by
  by_cases h : 97 ≤ c.toNat ∧ c.toNat ≤ 122
  · have hu : Char.toUpper c = Char.ofNat (c.toNat - 32) := by
      simp only [Char.toUpper]
      rw [if_pos h]
    have h1 : (Char.ofNat (c.toNat - 32)).toNat = c.toNat - 32 :=
      char_toNat_ofNat _ (by omega)
    rw [hu]
    simp only [Char.toLower, h1]
    rw [if_pos (by omega), if_neg (by omega)]
    have h2 : c.toNat - 32 + 32 = c.toNat := by omega
    rw [h2, Char.ofNat_toNat]
  · have hu : Char.toUpper c = c := by
      simp only [Char.toUpper]
      rw [if_neg h]
    rw [hu]

theorem mapLower_idem (l : List Char) :
    (l.map Char.toLower).map Char.toLower = l.map Char.toLower := by
  induction l with
  | nil => rfl
  | cons c rest ih => simp [toLower_toLower_char, ih]

theorem mapLower_mapUpper (l : List Char) :
    (l.map Char.toUpper).map Char.toLower = l.map Char.toLower := by
  induction l with
  | nil => rfl
  | cons c rest ih => simp [toLower_toUpper_char, ih]

theorem jsToLower_idem (s : String) : jsToLower (jsToLower s) = jsToLower s := by
  unfold jsToLower
  exact congrArg String.mk (mapLower_idem s.data)

theorem jsToLower_jsToUpper (s : String) : jsToLower (jsToUpper s) = jsToLower s := by
  unfold jsToLower jsToUpper
  exact congrArg String.mk (mapLower_mapUpper s.data)

/-- Modelled from the spec: the fixed paid set of section 4.2. -/
def Spec.specPaidSet : List String :=
  ["confirmado", "pago", "paid", "completed", "aprovado", "approved"]

theorem isPaidStatus_iff (s : String) :
    VerifyPayment.isPaidStatus s = Spec.specPaidSet.contains (jsToLower s) := by
  by_cases hs : (s == "") = true
  · have he : s = "" := by simpa using hs
    subst he
    rfl
  · unfold VerifyPayment.isPaidStatus
    rw [if_neg hs]
    rw [Bool.eq_iff_iff]
    constructor
    · intro h
      simp only [Bool.or_eq_true] at h
      rcases h with (h | h) | h
      · have hmem : s ∈ VerifyPayment.paidStatuses := by simpa using h
        simp only [VerifyPayment.paidStatuses, List.mem_cons, List.not_mem_nil,
          or_false] at hmem
        rcases hmem with h' | h' | h' | h' | h' | h' | h' <;> subst h' <;> decide
      · have hmem : jsToUpper s ∈ VerifyPayment.paidStatuses := by simpa using h
        simp only [VerifyPayment.paidStatuses, List.mem_cons, List.not_mem_nil,
          or_false] at hmem
        have hkey : Spec.specPaidSet.contains (jsToLower (jsToUpper s)) = true →
            Spec.specPaidSet.contains (jsToLower s) = true := by
          rw [jsToLower_jsToUpper]
          exact id
        apply hkey
        rcases hmem with h' | h' | h' | h' | h' | h' | h' <;> rw [h'] <;> decide
      · have hmem : jsToLower s ∈ VerifyPayment.paidStatuses := by simpa using h
        simp only [VerifyPayment.paidStatuses, List.mem_cons, List.not_mem_nil,
          or_false] at hmem
        have hkey : Spec.specPaidSet.contains (jsToLower (jsToLower s)) = true →
            Spec.specPaidSet.contains (jsToLower s) = true := by
          rw [jsToLower_idem]
          exact id
        apply hkey
        rcases hmem with h' | h' | h' | h' | h' | h' | h' <;> rw [h'] <;> decide
    · intro h
      have hmem : jsToLower s ∈ Spec.specPaidSet := by simpa using h
      simp only [Spec.specPaidSet, List.mem_cons, List.not_mem_nil, or_false] at hmem
      have hgoal : List.contains VerifyPayment.paidStatuses (jsToLower s) = true := by
        rcases hmem with h' | h' | h' | h' | h' | h' <;> rw [h'] <;> decide
      simp only [Bool.or_eq_true]
      right
      simpa using hgoal

theorem step1_nil (key : String) : step1 [] key = none := rfl

theorem resolveTtclid_step1_none {uq tx : List (String × Json)} {key : String}
    {p : Json} (h1 : step1 uq key = none) :
    resolveTtclid uq tx key p = resolveTtclid [] tx key p := by
  unfold resolveTtclid resolve15
  rw [h1, step1_nil]

theorem regexExec_all_token : ∀ {cs cap : List Char},
    regexExecTtclid cs = some cap → cap.all ttclidTokenChar = true := by
  intro cs
  induction cs with
  | nil => intro cap h; exact absurd h (by simp [regexExecTtclid])
  | cons c rest ih =>
    intro cap h
    unfold regexExecTtclid at h
    by_cases hs : startsWithTtclid (c :: rest) = true
    · rw [if_pos hs] at h
      by_cases he : (((c :: rest).drop 7).takeWhile ttclidTokenChar).isEmpty = true
      · rw [if_pos he] at h
        exact ih h
      · rw [if_neg he] at h
        simp only [Option.some.injEq] at h
        rw [← h]
        exact List.all_eq_true.mpr fun c hc => List.mem_takeWhile_imp hc
    · rw [if_neg hs] at h
      exact ih h

/-- Claim C4 counterexample: the claim says extraction applied to
`notttclid=x` yields no match, but the unanchored pattern matches the
embedded `ttclid=` and the helper returns `x`. -/
theorem c4_counterexample :
    regexExecTtclid "notttclid=x".data = some "x".data ∧
    Webhook.extractTtclidFromUtmQuery (some (.str "notttclid=x")) =
      .ok (some (.str "x")) :=
  ⟨rfl, rfl⟩

/-- Claim C4 (amended): query-string extraction matches `ttclid=` followed by
one or more non-`&`/non-whitespace characters anywhere in the string (the
pattern is unanchored, so `notttclid=x` matches, yielding `x`) and
percent-decodes the capture: `ttclid=abc%20def&x=1` yields `abc def`; every
returned capture is non-empty and free of `&`/whitespace. -/
theorem c4_query_string_extraction :
    Webhook.extractTtclidFromUtmQuery (some (.str "ttclid=abc%20def&x=1")) =
      .ok (some (.str "abc def")) ∧
    regexExecTtclid "ttclid=abc%20def&x=1".data = some "abc%20def".data ∧
    Webhook.extractTtclidFromUtmQuery (some (.str "notttclid=x")) =
      .ok (some (.str "x")) ∧
    (∀ cs cap : List Char, regexExecTtclid cs = some cap →
      cap ≠ [] ∧ cap.all ttclidTokenChar = true) :=
  ⟨rfl, rfl, rfl, fun _ _ h => ⟨regexExec_ne_nil h, regexExec_all_token h⟩⟩

/-- Claim C4 witness: the capture shape facts at a concrete input. -/
theorem c4_witness :
    ("abc%20def".data ≠ [] ∧ "abc%20def".data.all ttclidTokenChar = true) :=
  c4_query_string_extraction.2.2.2 "ttclid=abc%20def&x=1".data "abc%20def".data rfl

/-- Claim C10: when the input parses as JSON into an object with a truthy
`ttclid` member, that member is returned verbatim (no percent-decoding) and
the query-string fallback is never consulted; percent-decoding happens only
on the query-string path, so a JSON blob whose ttclid contains `%20` keeps
it, while the query-string form decodes it. -/
theorem c10_structured_path (s : String) (fs : List (String × Json))
    (hparse : jsonParse s = some (.obj fs))
    (httc : jsTruthy ((Json.obj fs).getProp "ttclid") = true) :
    Webhook.extractTtclidFromUtmQuery (some (.str s)) =
        .ok ((Json.obj fs).getProp "ttclid") ∧
    Webhook.extractTtclidFromUtmQuery
        (some (.str "\x7b\"ttclid\":\"a%20b\"\x7d")) = .ok (some (.str "a%20b")) ∧
    Webhook.extractTtclidFromUtmQuery (some (.str "ttclid=a%20b")) =
        .ok (some (.str "a b")) := by
  refine ⟨?_, rfl, rfl⟩
  have hne : s ≠ "" := by
    intro he
    rw [he] at hparse
    exact Option.noConfusion hparse
  have hT : jsTruthy (some (Json.str s)) = true := by
    simp [jsTruthy_some, Json.truthy, hne]
  unfold Webhook.extractTtclidFromUtmQuery
  rw [if_neg (by simp [hT])]
  rw [show jsToString (some (Json.str s)) = s from rfl]
  simp only [hparse]
  rw [if_pos (by simp [Json.truthy, httc])]

/-- Claim C10 witness: the structured path at a concrete JSON blob. -/
theorem c10_witness :
    Webhook.extractTtclidFromUtmQuery (some (.str "\x7b\"ttclid\":\"x\"\x7d")) =
      .ok (some (.str "x")) :=
  (c10_structured_path "\x7b\"ttclid\":\"x\"\x7d" [("ttclid", Json.str "x")]
    rfl rfl).1

/-- Claim C3 counterexample: malformed percent-encoding in `payload.utmQuery`
is not treated as a non-match - the decode throw escapes the resolver, the
handler answers 500 (internal error) and nothing is written. -/
theorem c3_counterexample :
    Webhook.handler [] []
        (.obj [("transaction_id", .str "t9"), ("utmQuery", .str "ttclid=%zz")])
        "NOW"
      = (.internalError, []) :=
  rfl

/-- Claim C3 (amended): a malformed percent-encoding is swallowed (that
source treated as a non-match, the cascade continuing) only for source 1,
the stored attribution-query blob, whose extraction runs in a local
try/catch; when the resolver throws (sources 3-5), the webhook surfaces an
internal error to the caller, leaving the store unchanged. -/
theorem c3_decode_failure_scoping :
    (∀ (uq : List (String × Json)) (key : String) (blob : Json),
        Webhook.storedUtmBlob uq key = some blob →
        Webhook.extractTtclidFromUtmQuery (some blob) = .error () →
        Webhook.step1 uq key = none) ∧
    (∀ (uq tx : List (String × Json)) (key : String) (p : Json),
        Webhook.step1 uq key = none →
        Webhook.resolveTtclid uq tx key p = Webhook.resolveTtclid [] tx key p) ∧
    (∀ (uq tx : List (String × Json)) (p : Json) (now : String) (tidj : Json),
        Webhook.extractTransactionId p = some tidj →
        Webhook.resolveTtclid uq tx (jsToStringJ tidj) p = .error () →
        Webhook.handler uq tx p now = (.internalError, tx)) := by
  refine ⟨?_, ?_, ?_⟩
  · intro uq key blob hb herr
    unfold Webhook.step1
    simp [hb, herr]
  · intro uq tx key p h1
    exact resolveTtclid_step1_none h1
  · intro uq tx p now tidj htid herr
    exact handler_error now htid herr

/-- Claim C3 witness: a malformed stored blob makes source 1 a non-match. -/
theorem c3_witness :
    Webhook.step1 [("t1", Json.obj [("utmQuery", Json.str "ttclid=%zz")])] "t1"
      = none :=
  c3_decode_failure_scoping.1 [("t1", Json.obj [("utmQuery", Json.str "ttclid=%zz")])]
    "t1" (Json.str "ttclid=%zz") rfl rfl

/-- Claim C1 counterexample: with a malformed escape at source 3 and a valid
source 4, the claim's cascade result would be source 4's value with the
metadata tag, but the resolver throws (the handler answers 500) instead of
returning the first non-empty source. -/
theorem c1_counterexample :
    Webhook.resolveTtclid [] [] "t1"
        (.obj [("utmQuery", .str "ttclid=%zz"),
               ("metadata", .obj [("utmQuery", .str "ttclid=ok")])])
      = .error () ∧
    Spec.specResolveTtclid [] [] "t1"
        (.obj [("utmQuery", .str "ttclid=%zz"),
               ("metadata", .obj [("utmQuery", .str "ttclid=ok")])])
      = (some (.str "ok"), some "metadata_utmQuery") :=
  ⟨rfl, rfl⟩

/-- Claim C1 (amended): whenever the resolver does not abort on a malformed
percent-encoding, it returns exactly the spec's strict priority cascade -
the first source in order 1 to 6 yielding a non-empty value, with that
source's tag, and `(null, null)` when every source fails; in particular a
payload with sources 2 and 4 both populated yields source 2's value with the
direct-payload tag, and the all-empty payload yields `(null, null)`. -/
theorem c1_priority_cascade :
    (∀ (uq tx : List (String × Json)) (key : String) (p : Json),
        Webhook.resolveTtclid uq tx key p = .error () ∨
        Webhook.resolveTtclid uq tx key p =
          .ok (Spec.specResolveTtclid uq tx key p)) ∧
    Webhook.resolveTtclid [] [] "t"
        (.obj [("ttclid", .str "A"),
               ("metadata", .obj [("utmQuery", .str "ttclid=B")])])
      = .ok (some (.str "A"), some "payload_direto") ∧
    Webhook.resolveTtclid [] [] "t" (.obj []) = .ok (none, none) :=
  ⟨resolveTtclid_spec, rfl, rfl⟩

/-- Claim C5: transaction id extraction tries `payload.transaction_id`, then
`payload.transactionId`, then `payload._id.$oid`, then `payload._id` itself
only when it is a (non-empty) string, first truthy match winning; when none
matches (the body itself being non-null, since reading a property of a null
body throws instead), the webhook answers with a validation error and the
transaction store is unchanged. -/
theorem c5_transaction_id_extraction :
    (∀ p : Json, jsTruthy (p.getProp "transaction_id") = true →
        Webhook.extractTransactionId p = p.getProp "transaction_id") ∧
    (∀ p : Json, jsTruthy (p.getProp "transaction_id") = false →
        jsTruthy (p.getProp "transactionId") = true →
        Webhook.extractTransactionId p = p.getProp "transactionId") ∧
    (∀ p : Json, jsTruthy (p.getProp "transaction_id") = false →
        jsTruthy (p.getProp "transactionId") = false →
        jsTruthy (p.getProp "_id") = true →
        jsTruthy (jsProp (p.getProp "_id") "$oid") = true →
        Webhook.extractTransactionId p = jsProp (p.getProp "_id") "$oid") ∧
    (∀ (p : Json) (s : String), jsTruthy (p.getProp "transaction_id") = false →
        jsTruthy (p.getProp "transactionId") = false →
        jsTruthy (jsProp (p.getProp "_id") "$oid") = false →
        p.getProp "_id" = some (.str s) → s ≠ "" →
        Webhook.extractTransactionId p = some (.str s)) ∧
    (∀ (uq tx : List (String × Json)) (p : Json) (now : String),
        p ≠ Json.null →
        Webhook.extractTransactionId p = none →
        Webhook.handler uq tx p now = (.badRequest, tx)) := by
  refine ⟨?_, ?_, ?_, ?_, ?_⟩
  · intro p h1
    unfold Webhook.extractTransactionId
    rw [if_pos h1]
  · intro p h1 h2
    unfold Webhook.extractTransactionId
    rw [if_neg (by simp [h1]), if_pos h2]
  · intro p h1 h2 h3 h4
    unfold Webhook.extractTransactionId
    rw [if_neg (by simp [h1]), if_neg (by simp [h2]), if_pos (by simp [h3, h4])]
  · intro p s h1 h2 h3 h4 h5
    unfold Webhook.extractTransactionId
    rw [if_neg (by simp [h1]), if_neg (by simp [h2]), if_neg (by simp [h3])]
    simp only [h4]
    rw [if_pos (by simpa [bne_iff_ne] using h5)]
  · intro uq tx p now _ htid
    exact handler_badRequest htid

/-- Claim C5 witness: the spec's missing-identity payload `{status:"paid"}`
is rejected with a validation error and the store is untouched. -/
theorem c5_witness :
    Webhook.handler [] [] (.obj [("status", .str "paid")]) "NOW" = (.badRequest, []) :=
  c5_transaction_id_extraction.2.2.2.2 [] [] (.obj [("status", .str "paid")]) "NOW"
    (fun h => Json.noConfusion h) rfl

/-- Claim C2: `ttclid` is sticky - when the stored record for the transaction
has a truthy `ttclid` and the new payload together with the stored
attribution query offer none (cascade steps 1-5 all fail), the merged record
keeps the prior value unchanged (tagged from the existing record); moreover
any successful merge over such a record leaves a truthy `ttclid`, so a later
merge never clears a populated one. -/
theorem c2_ttclid_sticky (uq tx : List (String × Json)) (p : Json) (now : String)
    (tidj rec t : Json)
    (htid : Webhook.extractTransactionId p = some tidj)
    (hget : storeGet tx (jsToStringJ tidj) = some rec)
    (hrect : rec.truthy = true)
    (ht : rec.getProp "ttclid" = some t)
    (htt : t.truthy = true) :
    (Webhook.resolve15 uq (jsToStringJ tidj) p = .ok (none, none) →
      ∃ tx', Webhook.handler uq tx p now =
          (.ok tidj (Webhook.rawStatus p)
            (Webhook.webhookIsPaid (Webhook.rawStatus p)
              (Webhook.statusLowerOf (Webhook.rawStatus p))), tx') ∧
        ∃ rec', storeGet tx' (jsToStringJ tidj) = some rec' ∧
          rec'.getProp "ttclid" = some t) ∧
    (∀ (a : Json) (b : Option String) (c : Bool) (tx' : List (String × Json)),
        Webhook.handler uq tx p now = (.ok a b c, tx') →
        ∃ rec', storeGet tx' (jsToStringJ tidj) = some rec' ∧
          jsTruthy (rec'.getProp "ttclid") = true) := by
  constructor
  · intro h15
    have hres := resolveTtclid_fallback h15 hget hrect ht htt
    refine ⟨_, handler_ok now htid hres,
      Webhook.recordOf p tidj now (some t) (some "transactions_json"),
      storeGet_storeSet_self _ _ _, ?_⟩
    rw [recordOf_getProp_ttclid]
    rfl
  · intro a b c tx' hh
    obtain ⟨tidj', t', s', htid', hres', ha, hb, hc, htx'⟩ := handler_ok_inv hh
    have h0 : some tidj = some tidj' := htid.symm.trans htid'
    injection h0 with h0
    subst h0
    have htv : jsTruthy t' = true := resolveTtclid_keeps_truthy hget hrect ht htt hres'
    subst htx'
    refine ⟨Webhook.recordOf p tidj now t' s', storeGet_storeSet_self _ _ _, ?_⟩
    rw [recordOf_getProp_ttclid]
    rcases t' with _ | v
    · simp [jsTruthy_none] at htv
    · simpa [jsTruthy_some, Webhook.orNull] using htv

/-- Claim C2 witness: a stored record with `ttclid = "A"` survives a merge of
a payload that offers no ttclid anywhere. -/
theorem c2_witness :
    ∃ tx', Webhook.handler [] [("t1", Json.obj [("ttclid", Json.str "A")])]
        (Json.obj [("transaction_id", Json.str "t1")]) "N2" =
        (.ok (Json.str "t1")
          (Webhook.rawStatus (Json.obj [("transaction_id", Json.str "t1")]))
          (Webhook.webhookIsPaid
            (Webhook.rawStatus (Json.obj [("transaction_id", Json.str "t1")]))
            (Webhook.statusLowerOf
              (Webhook.rawStatus (Json.obj [("transaction_id", Json.str "t1")])))),
          tx') ∧
      ∃ rec', storeGet tx' "t1" = some rec' ∧
        rec'.getProp "ttclid" = some (Json.str "A") :=
  (c2_ttclid_sticky [] [("t1", Json.obj [("ttclid", Json.str "A")])]
    (Json.obj [("transaction_id", Json.str "t1")]) "N2" (Json.str "t1")
    (Json.obj [("ttclid", Json.str "A")]) (Json.str "A")
    rfl rfl rfl rfl rfl).1 rfl

/-- Claim C7: the merge is idempotent up to the timestamp - re-delivering the
identical payload (attribution-query store unchanged) yields the same
response and a stored record identical to the first except for
`updated_at`. -/
theorem c7_merge_idempotent (uq tx : List (String × Json)) (p : Json)
    (n1 n2 : String) (a : Json) (b : Option String) (c : Bool)
    (tx1 : List (String × Json))
    (h1 : Webhook.handler uq tx p n1 = (.ok a b c, tx1)) :
    ∃ tx2, Webhook.handler uq tx1 p n2 = (.ok a b c, tx2) ∧
      ∃ tidj rec1 rec2, Webhook.extractTransactionId p = some tidj ∧
        storeGet tx1 (jsToStringJ tidj) = some rec1 ∧
        storeGet tx2 (jsToStringJ tidj) = some rec2 ∧
        rec1.eraseProp "updated_at" = rec2.eraseProp "updated_at" := by
  obtain ⟨tidj, t, s, htid, hres, ha, hb, hc, htx1⟩ := handler_ok_inv h1
  subst ha
  subst hb
  subst hc
  subst htx1
  have hres2 : Webhook.resolveTtclid uq
      (storeSet tx (jsToStringJ a) (Webhook.recordOf p a n1 t s))
      (jsToStringJ a) p = .ok (t, s) :=
    resolveTtclid_after_merge hres (recordOf_truthy p a n1 t s)
      (recordOf_getProp_ttclid p a n1 t s)
  exact ⟨_, handler_ok n2 htid hres2, a, _, _, htid,
    storeGet_storeSet_self _ _ _, storeGet_storeSet_self _ _ _,
    recordOf_erase_updatedAt p a n1 n2 t s⟩

/-- Claim C7 witness: a concrete double delivery of the same payload. -/
theorem c7_witness :
    ∃ tx2, Webhook.handler []
        [("t1", Webhook.recordOf (Json.obj [("transaction_id", Json.str "t1")])
          (Json.str "t1") "N1" none none)]
        (Json.obj [("transaction_id", Json.str "t1")]) "N2" =
        (.ok (Json.str "t1") none false, tx2) ∧
      ∃ tidj rec1 rec2,
        Webhook.extractTransactionId (Json.obj [("transaction_id", Json.str "t1")])
          = some tidj ∧
        storeGet [("t1", Webhook.recordOf (Json.obj [("transaction_id", Json.str "t1")])
          (Json.str "t1") "N1" none none)] (jsToStringJ tidj) = some rec1 ∧
        storeGet tx2 (jsToStringJ tidj) = some rec2 ∧
        rec1.eraseProp "updated_at" = rec2.eraseProp "updated_at" :=
  c7_merge_idempotent [] [] (Json.obj [("transaction_id", Json.str "t1")])
    "N1" "N2" (Json.str "t1") none false
    [("t1", Webhook.recordOf (Json.obj [("transaction_id", Json.str "t1")])
      (Json.str "t1") "N1" none none)] rfl

/-- Claim C9 counterexample: a stored customer email does not survive a later
payload without customer data - the merged record drops the field. -/
theorem c9_counterexample :
    jsProp (storeGet [("t1", Json.obj [("cliente_email", Json.str "ann@example.com")])]
        "t1") "cliente_email" = some (Json.str "ann@example.com") ∧
    jsProp (storeGet (Webhook.handler []
        [("t1", Json.obj [("cliente_email", Json.str "ann@example.com")])]
        (Json.obj [("transaction_id", Json.str "t1"), ("status", Json.str "paid")])
        "NOW").2 "t1") "cliente_email" = none :=
  ⟨rfl, rfl⟩

/-- Claim C9 (amended): the merged record is recomputed from the new payload
alone - apart from the resolved `ttclid`/`ttclid_source` pair, the stored
record after a successful merge does not depend on the previous store at
all, so fields of the old record absent from the new payload are dropped or
nulled rather than preserved. -/
theorem c9_fields_recomputed (uq tx tx' : List (String × Json)) (p : Json)
    (now : String) (a a' : Json) (b b' : Option String) (c c' : Bool)
    (s1 s1' : List (String × Json))
    (h1 : Webhook.handler uq tx p now = (.ok a b c, s1))
    (h2 : Webhook.handler uq tx' p now = (.ok a' b' c', s1')) :
    a = a' ∧ b = b' ∧ c = c' ∧
    ∃ tidj rec rec', Webhook.extractTransactionId p = some tidj ∧
      storeGet s1 (jsToStringJ tidj) = some rec ∧
      storeGet s1' (jsToStringJ tidj) = some rec' ∧
      (rec.eraseProp "ttclid").eraseProp "ttclid_source" =
        (rec'.eraseProp "ttclid").eraseProp "ttclid_source" := by
  obtain ⟨tidj, t, s, htid, hres, ha, hb, hc, hs1⟩ := handler_ok_inv h1
  obtain ⟨tidj2, t2, s2, htid2, hres2, ha2, hb2, hc2, hs2⟩ := handler_ok_inv h2
  subst ha
  subst ha2
  have h0 : some a = some a' := htid.symm.trans htid2
  injection h0 with h0
  subst h0
  subst hb
  subst hc
  subst hs1
  subst hb2
  subst hc2
  subst hs2
  exact ⟨rfl, rfl, rfl, a, _, _, htid, storeGet_storeSet_self _ _ _,
    storeGet_storeSet_self _ _ _, recordOf_erase_ttclid_src p a now t t2 s s2⟩

/-- Claim C9 witness: the same payload merged over an empty store and over a
store holding a record with a customer email produces records that agree
outside the ttclid pair - the old email is not preserved. -/
theorem c9_witness :
    (Json.str "t1") = (Json.str "t1") ∧ (none : Option String) = none ∧
    false = false ∧
    ∃ tidj rec rec',
      Webhook.extractTransactionId (Json.obj [("transaction_id", Json.str "t1")])
        = some tidj ∧
      storeGet [("t1", Webhook.recordOf (Json.obj [("transaction_id", Json.str "t1")])
        (Json.str "t1") "N" none none)] (jsToStringJ tidj) = some rec ∧
      storeGet [("t1", Webhook.recordOf (Json.obj [("transaction_id", Json.str "t1")])
        (Json.str "t1") "N" none none)] (jsToStringJ tidj) = some rec' ∧
      (rec.eraseProp "ttclid").eraseProp "ttclid_source" =
        (rec'.eraseProp "ttclid").eraseProp "ttclid_source" :=
  c9_fields_recomputed [] [] [("t1", Json.obj [("cliente_email", Json.str "e")])]
    (Json.obj [("transaction_id", Json.str "t1")]) "N"
    (Json.str "t1") (Json.str "t1") none none false false
    [("t1", Webhook.recordOf (Json.obj [("transaction_id", Json.str "t1")])
      (Json.str "t1") "N" none none)]
    [("t1", Webhook.recordOf (Json.obj [("transaction_id", Json.str "t1")])
      (Json.str "t1") "N" none none)] rfl rfl

/-- Claim C6 counterexample: the claim says any status outside the table
passes through unchanged, but `statusMap["constructor"]` finds the truthy
`Object.prototype` constructor on the prototype chain, so the lowercased
status `constructor` is overwritten with that non-string inherited value
instead of passing through. -/
theorem c6_counterexample :
    VerifyPayment.statusMapGet "constructor" = .inherited "constructor" ∧
    VerifyPayment.mapStatus "constructor" false =
      .protoValue "constructor" ∧
    VerifyPayment.mapStatus "constructor" false ≠
      .str "constructor" :=
  ⟨rfl, rfl, fun h => VerifyPayment.MappedStatus.noConfusion h⟩

/-- Claim C6 (amended): the Status Normalizer's paid flag is true exactly
when the raw status is a case-insensitive member of {confirmado, pago, paid,
completed, aprovado, approved} (so `PAGO`, `pago`, `Pago` are all paid); the
canonical display status is `paid` whenever the flag is true, and otherwise
the lowercased status maps pendente/waiting_payment to pending, canceled to
canceled, refunded to refunded; any other status passes through unchanged
unless it names an `Object.prototype` member (`constructor`, `toString`,
`__proto__`, ...), in which case the truthy prototype-chain hit of
`statusMap[status]` overwrites it with that non-string inherited value. -/
theorem c6_status_normalizer :
    (∀ s : String, VerifyPayment.isPaidStatus s =
        Spec.specPaidSet.contains (jsToLower s)) ∧
    VerifyPayment.isPaidStatus "PAGO" = true ∧
    VerifyPayment.isPaidStatus "pago" = true ∧
    VerifyPayment.isPaidStatus "Pago" = true ∧
    (∀ s : String, VerifyPayment.mapStatus s true = .str "paid") ∧
    VerifyPayment.mapStatus "pendente" false = .str "pending" ∧
    VerifyPayment.mapStatus "waiting_payment" false = .str "pending" ∧
    VerifyPayment.mapStatus "canceled" false = .str "canceled" ∧
    VerifyPayment.mapStatus "refunded" false = .str "refunded" ∧
    (∀ s : String, List.lookup s VerifyPayment.statusMap = none →
        VerifyPayment.objectProtoKeys.contains s = false →
        VerifyPayment.mapStatus s false = .str s) ∧
    (∀ s : String, List.lookup s VerifyPayment.statusMap = none →
        VerifyPayment.objectProtoKeys.contains s = true →
        VerifyPayment.mapStatus s false = .protoValue s) := by
  refine ⟨isPaidStatus_iff, rfl, rfl, rfl, fun s => rfl, rfl, rfl, rfl, rfl, ?_, ?_⟩
  · intro s h hp
    unfold VerifyPayment.mapStatus VerifyPayment.statusMapGet
    rw [if_neg (by simp)]
    simp only [h, hp, Bool.false_eq_true, if_false]
  · intro s h hp
    unfold VerifyPayment.mapStatus VerifyPayment.statusMapGet
    rw [if_neg (by simp)]
    simp only [h, hp, if_true]

/-- Claim C6 witness: a status outside both the table and the prototype
member names passes through unchanged, while the prototype member name
`toString` is overwritten by the inherited value. -/
theorem c6_witness :
    VerifyPayment.mapStatus "chargeback" false = .str "chargeback" ∧
    VerifyPayment.mapStatus "toString" false = .protoValue "toString" :=
  ⟨c6_status_normalizer.2.2.2.2.2.2.2.2.2.1 "chargeback" rfl rfl,
   c6_status_normalizer.2.2.2.2.2.2.2.2.2.2 "toString" rfl rfl⟩

/-- Claim C8: a poll whose id is found neither in the local store nor by the
remote fallback gets a 200 success body with canonical status `pending` and
`paid = false`, never an error response. -/
theorem c8_unknown_pending (tx : List (String × Json)) (remote : Option Json)
    (body : Json)
    (hid : jsTruthy (body.getProp "id") = true ∨
      jsTruthy (body.getProp "payment_id") = true)
    (hlocal : VerifyPayment.localLookup tx
      (jsOr (body.getProp "id") (body.getProp "payment_id")) = none)
    (hremote : remote = none) :
    VerifyPayment.handler tx remote body = .success "pending" false none := by
  unfold VerifyPayment.handler
  rw [if_neg (by rcases hid with h | h <;> simp [h])]
  simp only [hlocal, hremote]

/-- Claim C8 witness: polling an unknown id over an empty store with a failed
remote lookup. -/
theorem c8_witness :
    VerifyPayment.handler [] none (Json.obj [("id", Json.str "missing")]) =
      .success "pending" false none :=
  c8_unknown_pending [] none (Json.obj [("id", Json.str "missing")])
    (Or.inl rfl) rfl rfl
